import Mathlib

/-!
# The GBA memory bus (`src/gba/gba-memory.c`)

A shallow embedding of the address decoder, the eight load/store operations, the
active-region selector and the initialisation path of the memory bus, followed by
the theorems that settle the specification's claims about them.

Conventions of the embedding.

* Addresses are natural numbers; every use of an address in the source goes through
  a bitwise and with a 32-bit constant, so the result reads the low 32 bits only.
* A pointer is `Ptr`: the null pointer, the value `MAP_FAILED` that `mmap` returns on
  failure, or the base of a block of host memory.  Host memory is a `Heap`.
* A load returns `Option`: `none` stands for an access the C program has no defined
  result for (null or `MAP_FAILED` dereference, released block, index past the end of
  the block).  A store returns `Option State` in the same way.
* Multi-byte elements are little-endian, as on the emulated machine and on the hosts
  the emulator targets.
* The function-pointer fields of `struct ARMMemory` that `GBAMemoryInit` fills in are
  constant afterwards and are not part of the modelled state.
-/

namespace Mgba

/-! ## Constants of the headers -/

/-- Modelled from the spec: the constants of `gba-memory.h` and `gba.h`, which the
source includes but which are not part of the sources at hand.  They are taken as a
parameter of every definition, under the names the source uses. -/
structure Layout where
  OFFSET_MASK : Nat
  BASE_BIOS : Nat
  BASE_WORKING_RAM : Nat
  BASE_WORKING_IRAM : Nat
  BASE_IO : Nat
  BASE_PALETTE_RAM : Nat
  BASE_VRAM : Nat
  BASE_OAM : Nat
  BASE_CART0 : Nat
  BASE_CART0_EX : Nat
  BASE_CART1 : Nat
  BASE_CART1_EX : Nat
  BASE_CART2 : Nat
  BASE_CART2_EX : Nat
  BASE_CART_SRAM : Nat
  SIZE_BIOS : Nat
  SIZE_WORKING_RAM : Nat
  SIZE_WORKING_IRAM : Nat
  SIZE_IO : Nat
  SIZE_CART0 : Nat
  GBA_OUT_OF_MEMORY : Int

/-- Modelled from the spec: the memory map of the console, the instance of `Layout`
the emulator is built with.  The spec names `0x00000000` as the BIOS base and
`0x03000000` as the Internal Work RAM base, and `0x01000000` and `0x0F000000` as
addresses of no region; the remaining values are those of the hardware. -/
def gbaLayout : Layout where
  OFFSET_MASK := 0x00FFFFFF
  BASE_BIOS := 0x00000000
  BASE_WORKING_RAM := 0x02000000
  BASE_WORKING_IRAM := 0x03000000
  BASE_IO := 0x04000000
  BASE_PALETTE_RAM := 0x05000000
  BASE_VRAM := 0x06000000
  BASE_OAM := 0x07000000
  BASE_CART0 := 0x08000000
  BASE_CART0_EX := 0x09000000
  BASE_CART1 := 0x0A000000
  BASE_CART1_EX := 0x0B000000
  BASE_CART2 := 0x0C000000
  BASE_CART2_EX := 0x0D000000
  BASE_CART_SRAM := 0x0E000000
  SIZE_BIOS := 0x00004000
  SIZE_WORKING_RAM := 0x00040000
  SIZE_WORKING_IRAM := 0x00008000
  SIZE_IO := 0x00000400
  SIZE_CART0 := 0x02000000
  GBA_OUT_OF_MEMORY := -1

/-- The case labels of the load switches, in source order. -/
def Layout.bases (L : Layout) : List Nat :=
  [L.BASE_BIOS, L.BASE_WORKING_RAM, L.BASE_WORKING_IRAM, L.BASE_IO, L.BASE_PALETTE_RAM,
   L.BASE_VRAM, L.BASE_OAM, L.BASE_CART0, L.BASE_CART0_EX, L.BASE_CART1, L.BASE_CART1_EX,
   L.BASE_CART2, L.BASE_CART2_EX, L.BASE_CART_SRAM]

/-- The six cartridge ROM alias bases. -/
def Layout.cartBases (L : Layout) : List Nat :=
  [L.BASE_CART0, L.BASE_CART0_EX, L.BASE_CART1, L.BASE_CART1_EX, L.BASE_CART2, L.BASE_CART2_EX]

/-- A region size the mirroring mask `size - 1` works for: a power of two (a divisor
of `2 ^ 32`) that holds at least one 32-bit word. -/
def sizeOk (n : Nat) : Prop := 4 ≤ n ∧ n ∣ 2 ^ 32

instance (n : Nat) : Decidable (sizeOk n) := by
  unfold sizeOk; infer_instance

/-- What the C program needs of the constants: the case labels of one switch are
pairwise distinct (the compiler rejects duplicates), and the sizes used as masks are
powers of two of at least one word. -/
def Layout.WellFormed (L : Layout) : Prop :=
  L.bases.Nodup ∧ sizeOk L.SIZE_WORKING_RAM ∧ sizeOk L.SIZE_WORKING_IRAM ∧ sizeOk L.SIZE_CART0

instance (L : Layout) : Decidable L.WellFormed := by
  unfold Layout.WellFormed; infer_instance

/-- What the decoder needs of the memory map: the offset mask is `2 ^ m - 1` for some
`m ≤ 32`, every region base is a 32-bit multiple of the window `OFFSET_MASK + 1`, and
the BIOS, the two RAM regions and the I/O registers each fit in one window. -/
def Layout.Aligned (L : Layout) : Prop :=
  (L.OFFSET_MASK + 1) ∣ 2 ^ 32
  ∧ (∀ b ∈ L.bases, (L.OFFSET_MASK + 1) ∣ b ∧ b < 2 ^ 32)
  ∧ sizeOk L.SIZE_IO ∧ L.SIZE_IO ≤ L.OFFSET_MASK + 1
  ∧ L.SIZE_BIOS ≤ L.OFFSET_MASK + 1
  ∧ L.SIZE_WORKING_RAM ≤ L.OFFSET_MASK + 1
  ∧ L.SIZE_WORKING_IRAM ≤ L.OFFSET_MASK + 1

instance (L : Layout) : Decidable L.Aligned := by
  unfold Layout.Aligned; infer_instance

/-- The cartridge part of the memory map: three banks of `SIZE_CART0` bytes one after
the other, each bank two windows long, the second window being the bank's wait-state
alias `_EX`. -/
def Layout.CartBanks (L : Layout) : Prop :=
  L.SIZE_CART0 = 2 * (L.OFFSET_MASK + 1)
  ∧ L.SIZE_CART0 ∣ L.BASE_CART0
  ∧ L.BASE_CART0_EX = L.BASE_CART0 + (L.OFFSET_MASK + 1)
  ∧ L.BASE_CART1 = L.BASE_CART0 + L.SIZE_CART0
  ∧ L.BASE_CART1_EX = L.BASE_CART1 + (L.OFFSET_MASK + 1)
  ∧ L.BASE_CART2 = L.BASE_CART1 + L.SIZE_CART0
  ∧ L.BASE_CART2_EX = L.BASE_CART2 + (L.OFFSET_MASK + 1)

/-- The address `a` lies in the span of `size` bytes that starts at `base`. -/
def inSpan (base size a : Nat) : Prop := base ≤ a ∧ a < base + size

instance (base size a : Nat) : Decidable (inSpan base size a) := by
  unfold inSpan; infer_instance

instance (L : Layout) : Decidable L.CartBanks := by
  unfold Layout.CartBanks; infer_instance

/-- The switch scrutinee `address & ~OFFSET_MASK` on a `uint32_t` address. -/
def upperBits (L : Layout) (address : Nat) : Nat :=
  address &&& (0xFFFFFFFF ^^^ L.OFFSET_MASK)

/-! ## Host memory -/

/-- A block of host memory: `size` bytes, byte `i` being `data i` for `i < size`. -/
structure Buffer where
  size : Nat
  data : Nat → Fin 256

/-- A zero-filled block, as an anonymous mapping is. -/
def Buffer.zero (size : Nat) : Buffer := ⟨size, fun _ => 0⟩

/-- Byte `i` of the block, `none` past its end. -/
def Buffer.byte? (b : Buffer) (i : Nat) : Option Nat :=
  if i < b.size then some (b.data i).val else none

/-- Overwrite byte `i` (the caller checks the bound). -/
def Buffer.setByte (b : Buffer) (i : Nat) (v : Nat) : Buffer :=
  ⟨b.size, Function.update b.data i ⟨v % 256, Nat.mod_lt _ (by decide)⟩⟩

/-- Read `n` bytes from byte offset `off` as one little-endian unsigned number. -/
def Buffer.readLE (b : Buffer) (off : Nat) : Nat → Option Nat
  | 0 => some 0
  | n + 1 =>
    match b.byte? off, b.readLE (off + 1) n with
    | some lo, some hi => some (lo + 256 * hi)
    | _, _ => none

/-- Write the low `n` bytes of `v` at byte offset `off`, little-endian. -/
def Buffer.writeLE (b : Buffer) (off : Nat) (v : Nat) : Nat → Option Buffer
  | 0 => some b
  | n + 1 =>
    if off < b.size then (b.setByte off v).writeLE (off + 1) (v / 256) n else none

/-- The signed reading of the low `bits` bits of `u` (two's complement). -/
def toSigned (bits : Nat) (u : Nat) : Int :=
  if u % 2 ^ bits < 2 ^ (bits - 1) then ((u % 2 ^ bits : Nat) : Int)
  else ((u % 2 ^ bits : Nat) : Int) - 2 ^ bits

/-- The bit pattern of `v` at width `bits`, as an unsigned number. -/
def toUnsigned (bits : Nat) (v : Int) : Nat := (v % 2 ^ bits).toNat

/-- A pointer value held in a field of the bus. -/
inductive Ptr where
  | null
  | mapFailed
  | block (id : Nat)
  deriving DecidableEq, Repr

/-- Host memory: the blocks currently mapped, by block id. -/
abbrev Heap := Nat → Option Buffer

/-- The block a pointer points to, if it points to a mapped one. -/
def Heap.deref (h : Heap) : Ptr → Option Buffer
  | Ptr.block id => h id
  | _ => none

/-! ## The state -/

/-- The two cache fields of `struct ARMMemory`. -/
structure ARMMemory where
  activeRegion : Ptr
  activeMask : Nat

/-- The fields of the owning context `struct GBA` that the bus touches, and the calls
the I/O collaborator has received. -/
structure GBA where
  errno : Int
  errstr : Option String
  ioWrites : List (Nat × Int)

/-- The record `struct GBAMemory`. -/
structure GBAMemory where
  d : ARMMemory
  p : GBA
  bios : Ptr
  wram : Ptr
  iwram : Ptr
  rom : Ptr
  io : List Nat

/-- The program state: the bus record, host memory, and the `munmap` calls made. -/
structure State where
  memory : GBAMemory
  heap : Heap
  munmaps : List (Ptr × Nat)

/-- Element `idx` of the block at `p` viewed as an array of `width`-byte elements. -/
def State.loadElem (s : State) (p : Ptr) (width idx : Nat) : Option Nat :=
  match s.heap.deref p with
  | some b => b.readLE (width * idx) width
  | none => none

/-- Assign element `idx` of the block at `p` viewed as an array of `width`-byte
elements. -/
def State.storeElem (s : State) (p : Ptr) (width idx : Nat) (u : Nat) : Option State :=
  match p with
  | Ptr.block id =>
    match s.heap id with
    | some b =>
      match b.writeLE (width * idx) u width with
      | some b' => some { s with heap := Function.update s.heap id (some b') }
      | none => none
    | none => none
  | _ => none

/-- Modelled from the spec: the I/O collaborator `GBAIOWrite` of `gba-io.h`, which is
not part of the sources at hand; a call is recorded in the context's trace. -/
def GBAIOWrite (p : GBA) (address : Nat) (value : Int) : GBA :=
  { p with ioWrites := p.ioWrites ++ [(address, value)] }

/-! ## The selector -/

/-- Assign the two cache fields `activeRegion` and `activeMask`. -/
def State.withCache (s : State) (region : Ptr) (mask : Nat) : State :=
  { s with memory := { s.memory with d := { activeRegion := region, activeMask := mask } } }

/-- The function `GBASetActiveRegion`. -/
def GBASetActiveRegion (L : Layout) (s : State) (address : Nat) : State :=
  let r := upperBits L address
  if r = L.BASE_BIOS then s.withCache s.memory.bios 0
  else if r = L.BASE_WORKING_RAM then s.withCache s.memory.wram (L.SIZE_WORKING_RAM - 1)
  else if r = L.BASE_WORKING_IRAM then s.withCache s.memory.iwram (L.SIZE_WORKING_IRAM - 1)
  else if r = L.BASE_CART0 ∨ r = L.BASE_CART0_EX ∨ r = L.BASE_CART1 ∨ r = L.BASE_CART1_EX
      ∨ r = L.BASE_CART2 ∨ r = L.BASE_CART2_EX then
    s.withCache s.memory.rom (L.SIZE_CART0 - 1)
  else s.withCache Ptr.null 0

/-! ## Loads -/

/-- The function `GBALoad32`. -/
def GBALoad32 (L : Layout) (s : State) (address : Nat) : Option Int :=
  let r := upperBits L address
  if r = L.BASE_BIOS then some 0
  else if r = L.BASE_WORKING_RAM then
    (s.loadElem s.memory.wram 4 ((address &&& (L.SIZE_WORKING_RAM - 1)) >>> 2)).map (toSigned 32)
  else if r = L.BASE_WORKING_IRAM then
    (s.loadElem s.memory.iwram 4 ((address &&& (L.SIZE_WORKING_IRAM - 1)) >>> 2)).map (toSigned 32)
  else if r = L.BASE_IO then some 0
  else if r = L.BASE_PALETTE_RAM then some 0
  else if r = L.BASE_VRAM then some 0
  else if r = L.BASE_OAM then some 0
  else if r = L.BASE_CART0 ∨ r = L.BASE_CART0_EX ∨ r = L.BASE_CART1 ∨ r = L.BASE_CART1_EX
      ∨ r = L.BASE_CART2 ∨ r = L.BASE_CART2_EX then
    (s.loadElem s.memory.rom 4 ((address &&& (L.SIZE_CART0 - 1)) >>> 2)).map (toSigned 32)
  else if r = L.BASE_CART_SRAM then some 0
  else some 0

/-- The function `GBALoad16`. -/
def GBALoad16 (L : Layout) (s : State) (address : Nat) : Option Int :=
  let r := upperBits L address
  if r = L.BASE_BIOS then some 0
  else if r = L.BASE_WORKING_RAM then
    (s.loadElem s.memory.wram 2 ((address &&& (L.SIZE_WORKING_RAM - 1)) >>> 1)).map (toSigned 16)
  else if r = L.BASE_WORKING_IRAM then
    (s.loadElem s.memory.iwram 2 ((address &&& (L.SIZE_WORKING_IRAM - 1)) >>> 1)).map (toSigned 16)
  else if r = L.BASE_IO then some 0
  else if r = L.BASE_PALETTE_RAM then some 0
  else if r = L.BASE_VRAM then some 0
  else if r = L.BASE_OAM then some 0
  else if r = L.BASE_CART0 ∨ r = L.BASE_CART0_EX ∨ r = L.BASE_CART1 ∨ r = L.BASE_CART1_EX
      ∨ r = L.BASE_CART2 ∨ r = L.BASE_CART2_EX then
    (s.loadElem s.memory.rom 2 ((address &&& (L.SIZE_CART0 - 1)) >>> 1)).map (toSigned 16)
  else if r = L.BASE_CART_SRAM then some 0
  else some 0

/-- The function `GBALoadU16`. -/
def GBALoadU16 (L : Layout) (s : State) (address : Nat) : Option Nat :=
  let r := upperBits L address
  if r = L.BASE_BIOS then some 0
  else if r = L.BASE_WORKING_RAM then
    s.loadElem s.memory.wram 2 ((address &&& (L.SIZE_WORKING_RAM - 1)) >>> 1)
  else if r = L.BASE_WORKING_IRAM then
    s.loadElem s.memory.iwram 2 ((address &&& (L.SIZE_WORKING_IRAM - 1)) >>> 1)
  else if r = L.BASE_IO then some 0
  else if r = L.BASE_PALETTE_RAM then some 0
  else if r = L.BASE_VRAM then some 0
  else if r = L.BASE_OAM then some 0
  else if r = L.BASE_CART0 ∨ r = L.BASE_CART0_EX ∨ r = L.BASE_CART1 ∨ r = L.BASE_CART1_EX
      ∨ r = L.BASE_CART2 ∨ r = L.BASE_CART2_EX then
    s.loadElem s.memory.rom 2 ((address &&& (L.SIZE_CART0 - 1)) >>> 1)
  else if r = L.BASE_CART_SRAM then some 0
  else some 0

/-- The function `GBALoad8`. -/
def GBALoad8 (L : Layout) (s : State) (address : Nat) : Option Int :=
  let r := upperBits L address
  if r = L.BASE_BIOS then some 0
  else if r = L.BASE_WORKING_RAM then
    (s.loadElem s.memory.wram 1 (address &&& (L.SIZE_WORKING_RAM - 1))).map (toSigned 8)
  else if r = L.BASE_WORKING_IRAM then
    (s.loadElem s.memory.iwram 1 (address &&& (L.SIZE_WORKING_IRAM - 1))).map (toSigned 8)
  else if r = L.BASE_IO then some 0
  else if r = L.BASE_PALETTE_RAM then some 0
  else if r = L.BASE_VRAM then some 0
  else if r = L.BASE_OAM then some 0
  else if r = L.BASE_CART0 ∨ r = L.BASE_CART0_EX ∨ r = L.BASE_CART1 ∨ r = L.BASE_CART1_EX
      ∨ r = L.BASE_CART2 ∨ r = L.BASE_CART2_EX then
    (s.loadElem s.memory.rom 1 (address &&& (L.SIZE_CART0 - 1))).map (toSigned 8)
  else if r = L.BASE_CART_SRAM then some 0
  else some 0

/-- The function `GBALoadU8`. -/
def GBALoadU8 (L : Layout) (s : State) (address : Nat) : Option Nat :=
  let r := upperBits L address
  if r = L.BASE_BIOS then some 0
  else if r = L.BASE_WORKING_RAM then
    s.loadElem s.memory.wram 1 (address &&& (L.SIZE_WORKING_RAM - 1))
  else if r = L.BASE_WORKING_IRAM then
    s.loadElem s.memory.iwram 1 (address &&& (L.SIZE_WORKING_IRAM - 1))
  else if r = L.BASE_IO then some 0
  else if r = L.BASE_PALETTE_RAM then some 0
  else if r = L.BASE_VRAM then some 0
  else if r = L.BASE_OAM then some 0
  else if r = L.BASE_CART0 ∨ r = L.BASE_CART0_EX ∨ r = L.BASE_CART1 ∨ r = L.BASE_CART1_EX
      ∨ r = L.BASE_CART2 ∨ r = L.BASE_CART2_EX then
    s.loadElem s.memory.rom 1 (address &&& (L.SIZE_CART0 - 1))
  else if r = L.BASE_CART_SRAM then some 0
  else some 0

/-! ## Stores -/

/-- The function `GBAStore32`. -/
def GBAStore32 (L : Layout) (s : State) (address : Nat) (value : Int) : Option State :=
  let r := upperBits L address
  if r = L.BASE_WORKING_RAM then
    s.storeElem s.memory.wram 4 ((address &&& (L.SIZE_WORKING_RAM - 1)) >>> 2) (toUnsigned 32 value)
  else if r = L.BASE_WORKING_IRAM then
    s.storeElem s.memory.iwram 4 ((address &&& (L.SIZE_WORKING_IRAM - 1)) >>> 2) (toUnsigned 32 value)
  else if r = L.BASE_IO then some s
  else if r = L.BASE_PALETTE_RAM then some s
  else if r = L.BASE_VRAM then some s
  else if r = L.BASE_OAM then some s
  else if r = L.BASE_CART0 then some s
  else if r = L.BASE_CART2_EX then some s
  else if r = L.BASE_CART_SRAM then some s
  else some s

/-- The function `GBAStore16`. -/
def GBAStore16 (L : Layout) (s : State) (address : Nat) (value : Int) : Option State :=
  let r := upperBits L address
  if r = L.BASE_WORKING_RAM then
    s.storeElem s.memory.wram 2 ((address &&& (L.SIZE_WORKING_RAM - 1)) >>> 1) (toUnsigned 16 value)
  else if r = L.BASE_WORKING_IRAM then
    s.storeElem s.memory.iwram 2 ((address &&& (L.SIZE_WORKING_IRAM - 1)) >>> 1) (toUnsigned 16 value)
  else if r = L.BASE_IO then
    some { s with memory := { s.memory with
      p := GBAIOWrite s.memory.p (address &&& (L.SIZE_IO - 1)) value } }
  else if r = L.BASE_PALETTE_RAM then some s
  else if r = L.BASE_VRAM then some s
  else if r = L.BASE_OAM then some s
  else if r = L.BASE_CART0 then some s
  else if r = L.BASE_CART2_EX then some s
  else if r = L.BASE_CART_SRAM then some s
  else some s

/-- The function `GBAStore8`. -/
def GBAStore8 (L : Layout) (s : State) (address : Nat) (value : Int) : Option State :=
  let r := upperBits L address
  if r = L.BASE_WORKING_RAM then
    s.storeElem s.memory.wram 1 (address &&& (L.SIZE_WORKING_RAM - 1)) (toUnsigned 8 value)
  else if r = L.BASE_WORKING_IRAM then
    s.storeElem s.memory.iwram 1 (address &&& (L.SIZE_WORKING_IRAM - 1)) (toUnsigned 8 value)
  else if r = L.BASE_IO then some s
  else if r = L.BASE_PALETTE_RAM then some s
  else if r = L.BASE_VRAM then some s
  else if r = L.BASE_OAM then some s
  else if r = L.BASE_CART0 then some s
  else if r = L.BASE_CART2_EX then some s
  else if r = L.BASE_CART_SRAM then some s
  else some s

/-! ## Initialisation and teardown -/

/-- The message `GBA_CANNOT_MMAP`. -/
def GBA_CANNOT_MMAP : String := "Could not map memory"

/-- The outcome of one `mmap` call, which the host decides: failure, or a fresh block
with the given id. -/
inductive MmapResult where
  | failed
  | mapped (id : Nat)
  deriving DecidableEq, Repr

/-- The call `mmap(0, size, PROT_READ | PROT_WRITE, MAP_PRIVATE | MAP_ANON, -1, 0)`:
on success a zero-filled block of `size` bytes, on failure the value `MAP_FAILED`,
which is `(void*) -1` and so not the null pointer. -/
def mmapAnon (s : State) (size : Nat) : MmapResult → Ptr × State
  | MmapResult.failed => (Ptr.mapFailed, s)
  | MmapResult.mapped id =>
    (Ptr.block id, { s with heap := Function.update s.heap id (some (Buffer.zero size)) })

/-- The call `munmap(p, size)`: the call is recorded, and a block at `p` is released. -/
def munmap (s : State) (p : Ptr) (size : Nat) : State :=
  { s with
    heap := match p with
      | Ptr.block id => Function.update s.heap id none
      | _ => s.heap
    munmaps := s.munmaps ++ [(p, size)] }

/-- The function `GBAMemoryDeinit`. -/
def GBAMemoryDeinit (L : Layout) (s : State) : State :=
  let s1 := munmap s s.memory.wram L.SIZE_WORKING_RAM
  munmap s1 s1.memory.iwram L.SIZE_WORKING_IRAM

/-- The function `GBAMemoryInit`; `rw` and `ri` are the outcomes of its two `mmap`
calls, and `memset` keeps the length of `io`. -/
def GBAMemoryInit (L : Layout) (s : State) (rw ri : MmapResult) : State :=
  let s1 : State := { s with memory := { s.memory with bios := Ptr.null } }
  let mw := mmapAnon s1 L.SIZE_WORKING_RAM rw
  let s2 : State := { mw.2 with memory := { mw.2.memory with wram := mw.1 } }
  let mi := mmapAnon s2 L.SIZE_WORKING_IRAM ri
  let s3 : State := { mi.2 with memory := { mi.2.memory with iwram := mi.1 } }
  let s4 : State := { s3 with memory := { s3.memory with
    rom := Ptr.null, io := s3.memory.io.map (fun _ => 0) } }
  let s5 : State :=
    if s4.memory.wram = Ptr.null ∨ s4.memory.iwram = Ptr.null then
      let t := GBAMemoryDeinit L s4
      { t with memory := { t.memory with
        p := { t.memory.p with errno := L.GBA_OUT_OF_MEMORY, errstr := some GBA_CANNOT_MMAP } } }
    else s4
  { s5 with memory := { s5.memory with d := { activeRegion := Ptr.null, activeMask := 0 } } }

/-! ## Concrete states used to exercise the theorems -/

/-- A bus record before initialisation, on a host with nothing mapped. -/
def blankState : State where
  memory :=
    { d := { activeRegion := Ptr.null, activeMask := 0 }
      p := { errno := 0, errstr := none, ioWrites := [] }
      bios := Ptr.null
      wram := Ptr.null
      iwram := Ptr.null
      rom := Ptr.null
      io := List.replicate 512 0 }
  heap := fun _ => none
  munmaps := []

/-- The state after a successful `GBAMemoryInit` with the console's layout. -/
def bootState : State :=
  GBAMemoryInit gbaLayout blankState (MmapResult.mapped 0) (MmapResult.mapped 1)

/-- The freshly initialised bus with a BIOS image attached by the loader: a block of
`0x4000` bytes, every one of them `0xFF`. -/
def biosAttachedState : State :=
  { bootState with
    memory := { bootState.memory with bios := Ptr.block 2 }
    heap := Function.update bootState.heap 2 (some ⟨0x4000, fun _ => 0xFF⟩) }

/-- The freshly initialised bus with a cartridge attached by the loader: a block of
`0x2000000` bytes, byte `i` being `7 * i + 1` modulo 256. -/
def romAttachedState : State :=
  { bootState with
    memory := { bootState.memory with rom := Ptr.block 3 }
    heap := Function.update bootState.heap 3 (some ⟨0x2000000, fun i => Fin.ofNat (7 * i + 1)⟩) }

/-- The freshly initialised bus with a cartridge image of only `0x100` bytes attached,
shorter than the `SIZE_CART0` bytes the loads index into. -/
def shortRomState : State :=
  { bootState with
    memory := { bootState.memory with rom := Ptr.block 3 }
    heap := Function.update bootState.heap 3 (some ⟨0x100, fun i => Fin.ofNat (7 * i + 1)⟩) }

/-! ## Predicates on states -/

/-- The pointer `p` is the base of a mapped block of at least `size` bytes. -/
def State.Mapped (s : State) (p : Ptr) (size : Nat) : Prop :=
  ∃ b, s.heap.deref p = some b ∧ size ≤ b.size

/-- Work RAM and Internal Work RAM are present: both pointers are the bases of mapped
blocks that hold the regions' declared sizes, as after a successful initialisation. -/
def State.RamPresent (L : Layout) (s : State) : Prop :=
  s.Mapped s.memory.wram L.SIZE_WORKING_RAM ∧ s.Mapped s.memory.iwram L.SIZE_WORKING_IRAM

/-- Modelled from the spec: the read the processor core makes through the cache, the
32-bit word `activeRegion[(address & activeMask) >> 2]`; the core is not part of the
sources at hand. -/
def cacheLoad32 (s : State) (address : Nat) : Option Int :=
  (s.loadElem s.memory.d.activeRegion 4 ((address &&& s.memory.d.activeMask) >>> 2)).map
    (toSigned 32)

/-- The address `a & ~(2 ^ n - 1)` on a `uint32_t`, the address `a` with its low `n`
bits cleared: `a & ~3` for `n = 2` and `a & ~1` for `n = 1`. -/
def clearLow (n : Nat) (a : Nat) : Nat := a &&& (0xFFFFFFFF ^^^ (2 ^ n - 1))

/-- The buffers of the bus do not alias: the Work RAM and Internal Work RAM blocks,
which the bus owns exclusively, are distinct from each other and from whatever the
loader attached as ROM and as BIOS. -/
def State.Separate (s : State) : Prop :=
  s.memory.wram ≠ s.memory.iwram ∧ s.memory.rom ≠ s.memory.wram
  ∧ s.memory.rom ≠ s.memory.iwram ∧ s.memory.bios ≠ s.memory.wram
  ∧ s.memory.bios ≠ s.memory.iwram

/-- Element `i` of width `w` and element `i'` of width `w'` of one buffer share no
byte. -/
def elemDisjoint (w i w' i' : Nat) : Prop := w' * i' + w' ≤ w * i ∨ w * i + w ≤ w' * i'

instance (w i w' i' : Nat) : Decidable (elemDisjoint w i w' i') := by
  unfold elemDisjoint; infer_instance

/-- What a store that assigns element `idx` of width `width` in the block at `p`, the
buffer of the region with base `base` and size `S`, leaves alone between the state `s`
before and the state `s'` after: the bus record (pointers, `io`, cache fields, owning
context) and the record of `munmap` calls; every other block of host memory; the size
of the block at `p` and its bytes outside the element; every load at an address outside
the region; and every load at an address of the region whose element shares no byte
with the written one. -/
def StoreFrame (L : Layout) (s s' : State) (base S : Nat) (p : Ptr) (width idx : Nat) : Prop :=
  s'.memory = s.memory ∧ s'.munmaps = s.munmaps
  ∧ (∀ q, q ≠ p → s'.heap.deref q = s.heap.deref q)
  ∧ (∃ b b', s.heap.deref p = some b ∧ s'.heap.deref p = some b' ∧ b'.size = b.size
      ∧ ∀ j, j < width * idx ∨ width * idx + width ≤ j → b'.data j = b.data j)
  ∧ (∀ b, upperBits L b ≠ base →
      GBALoad32 L s' b = GBALoad32 L s b ∧ GBALoad16 L s' b = GBALoad16 L s b
      ∧ GBALoadU16 L s' b = GBALoadU16 L s b ∧ GBALoad8 L s' b = GBALoad8 L s b
      ∧ GBALoadU8 L s' b = GBALoadU8 L s b)
  ∧ (∀ b, upperBits L b = base →
      (elemDisjoint width idx 4 ((b &&& (S - 1)) >>> 2) →
        GBALoad32 L s' b = GBALoad32 L s b)
      ∧ (elemDisjoint width idx 2 ((b &&& (S - 1)) >>> 1) →
        GBALoad16 L s' b = GBALoad16 L s b ∧ GBALoadU16 L s' b = GBALoadU16 L s b)
      ∧ (elemDisjoint width idx 1 (b &&& (S - 1)) →
        GBALoad8 L s' b = GBALoad8 L s b ∧ GBALoadU8 L s' b = GBALoadU8 L s b))

/-- The pointer `p` is the base of a mapped block of exactly `size` bytes. -/
def State.MappedExactly (s : State) (p : Ptr) (size : Nat) : Prop :=
  ∃ b, s.heap.deref p = some b ∧ b.size = size

/-! ## Arithmetic of masks and indices -/

theorem sizeOk_pow {n : Nat} (h : sizeOk n) : ∃ k, 2 ≤ k ∧ n = 2 ^ k := by
  obtain ⟨h4, hd⟩ := h
  obtain ⟨k, -, rfl⟩ := (Nat.dvd_prime_pow Nat.prime_two).1 hd
  refine ⟨k, ?_, rfl⟩
  by_contra hk
  have hk1 : k = 0 ∨ k = 1 := by omega
  rcases hk1 with rfl | rfl <;> simp at h4

theorem and_size_mask {n : Nat} (h : sizeOk n) (a : Nat) : a &&& (n - 1) = a % n := by
  obtain ⟨k, -, rfl⟩ := sizeOk_pow h
  exact Nat.and_pow_two_sub_one_eq_mod a k

theorem sizeOk_four_dvd {n : Nat} (h : sizeOk n) : 4 ∣ n := by
  obtain ⟨k, hk, rfl⟩ := sizeOk_pow h
  exact pow_dvd_pow 2 hk

theorem and_size_mask_lt {n : Nat} (h : sizeOk n) (a : Nat) : a &&& (n - 1) < n := by
  rw [and_size_mask h]
  exact Nat.mod_lt _ (by have := h.1; omega)

theorem word_index_bound {n : Nat} (h : sizeOk n) (a : Nat) :
    4 * ((a &&& (n - 1)) >>> 2) + 4 ≤ n := by
  have hlt := and_size_mask_lt h a
  obtain ⟨m, hm⟩ := sizeOk_four_dvd h
  rw [Nat.shiftRight_eq_div_pow]
  have : (2 : Nat) ^ 2 = 4 := by norm_num
  rw [this]
  omega

theorem half_index_bound {n : Nat} (h : sizeOk n) (a : Nat) :
    2 * ((a &&& (n - 1)) >>> 1) + 2 ≤ n := by
  have hlt := and_size_mask_lt h a
  obtain ⟨m, hm⟩ := sizeOk_four_dvd h
  rw [Nat.shiftRight_eq_div_pow]
  have : (2 : Nat) ^ 1 = 2 := by norm_num
  rw [this]
  omega

theorem byte_index_bound {n : Nat} (h : sizeOk n) (a : Nat) :
    1 * (a &&& (n - 1)) + 1 ≤ n := by
  have hlt := and_size_mask_lt h a
  omega

/-! ## Reading and writing a block -/

theorem Buffer.setByte_size (b : Buffer) (i v : Nat) : (b.setByte i v).size = b.size := rfl

theorem Buffer.setByte_data_same (b : Buffer) (i v : Nat) :
    ((b.setByte i v).data i).val = v % 256 := by
  simp [Buffer.setByte]

theorem Buffer.setByte_data_ne (b : Buffer) {i j : Nat} (v : Nat) (h : j ≠ i) :
    (b.setByte i v).data j = b.data j := by
  simp [Buffer.setByte, Function.update_noteq h]

theorem Buffer.writeLE_isSome (n : Nat) : ∀ (b : Buffer) (off v : Nat),
    off + n ≤ b.size → ∃ b', b.writeLE off v n = some b' := by
  induction n with
  | zero => intro b off v _; exact ⟨b, rfl⟩
  | succ n ih =>
    intro b off v h
    have hlt : off < b.size := by omega
    simp only [Buffer.writeLE, hlt, if_true]
    exact ih _ _ _ (by rw [Buffer.setByte_size]; omega)

theorem Buffer.writeLE_size (n : Nat) : ∀ (b b' : Buffer) (off v : Nat),
    b.writeLE off v n = some b' → b'.size = b.size := by
  induction n with
  | zero => intro b b' off v h; simp [Buffer.writeLE] at h; rw [← h]
  | succ n ih =>
    intro b b' off v h
    simp only [Buffer.writeLE] at h
    split at h
    · exact (ih _ _ _ _ h).trans (Buffer.setByte_size _ _ _)
    · exact absurd h (by simp)

theorem Buffer.writeLE_data_frame (n : Nat) : ∀ (b b' : Buffer) (off v j : Nat),
    b.writeLE off v n = some b' → (j < off ∨ off + n ≤ j) → b'.data j = b.data j := by
  induction n with
  | zero => intro b b' off v j h _; simp [Buffer.writeLE] at h; rw [← h]
  | succ n ih =>
    intro b b' off v j h hj
    simp only [Buffer.writeLE] at h
    split at h
    · rw [ih _ _ _ _ j h (by omega)]
      exact Buffer.setByte_data_ne b v (by omega)
    · exact absurd h (by simp)

theorem Buffer.readLE_writeLE (n : Nat) : ∀ (b b' : Buffer) (off v : Nat),
    b.writeLE off v n = some b' → b'.readLE off n = some (v % 256 ^ n) := by
  induction n with
  | zero => intro b b' off v _; simp [Buffer.readLE, Nat.mod_one]
  | succ n ih =>
    intro b b' off v h
    have hsz := Buffer.writeLE_size _ _ _ _ _ h
    simp only [Buffer.writeLE] at h
    split at h
    · rename_i hlt
      have hrest := ih _ _ _ _ h
      have hbyte : b'.byte? off = some (v % 256) := by
        have hd := Buffer.writeLE_data_frame n _ _ _ _ off h (Or.inl (Nat.lt_succ_self off))
        simp only [Buffer.byte?, hsz, hlt, if_true, hd, Buffer.setByte_data_same]
      simp only [Buffer.readLE, hbyte, hrest]
      rw [pow_succ', Nat.mod_mul]
    · exact absurd h (by simp)

theorem Buffer.readLE_congr (n : Nat) : ∀ (b b' : Buffer) (off : Nat),
    b'.size = b.size → (∀ j, off ≤ j → j < off + n → b'.data j = b.data j) →
    b'.readLE off n = b.readLE off n := by
  induction n with
  | zero => intro b b' off _ _; rfl
  | succ n ih =>
    intro b b' off hsz hd
    have h0 : b'.byte? off = b.byte? off := by
      simp only [Buffer.byte?, hsz, hd off (Nat.le_refl _) (by omega)]
    have h1 := ih b b' (off + 1) hsz (fun j h1 h2 => hd j (by omega) (by omega))
    simp only [Buffer.readLE, h0, h1]

/-! ## Two's complement -/

theorem toSigned_toUnsigned_32 (v : Int) (h1 : -2 ^ 31 ≤ v) (h2 : v < 2 ^ 31) :
    toSigned 32 (toUnsigned 32 v % 256 ^ 4) = v := by
  unfold toSigned toUnsigned
  norm_num at h1 h2 ⊢
  split <;> omega

theorem toSigned_toUnsigned_16 (v : Int) (h1 : -2 ^ 15 ≤ v) (h2 : v < 2 ^ 15) :
    toSigned 16 (toUnsigned 16 v % 256 ^ 2) = v := by
  unfold toSigned toUnsigned
  norm_num at h1 h2 ⊢
  split <;> omega

theorem toSigned_toUnsigned_8 (v : Int) (h1 : -2 ^ 7 ≤ v) (h2 : v < 2 ^ 7) :
    toSigned 8 (toUnsigned 8 v % 256 ^ 1) = v := by
  unfold toSigned toUnsigned
  norm_num at h1 h2 ⊢
  split <;> omega

theorem toUnsigned_mod_16 (v : Int) : toUnsigned 16 v % 256 ^ 2 = toUnsigned 16 v := by
  unfold toUnsigned
  norm_num
  omega

theorem toUnsigned_mod_8 (v : Int) : toUnsigned 8 v % 256 ^ 1 = toUnsigned 8 v := by
  unfold toUnsigned
  norm_num
  omega

/-! ## Distinct case labels -/

theorem Layout.WellFormed.pairs {L : Layout} (hL : L.WellFormed) :
    (L.BASE_WORKING_RAM ≠ L.BASE_BIOS ∧ L.BASE_WORKING_IRAM ≠ L.BASE_BIOS
      ∧ L.BASE_WORKING_IRAM ≠ L.BASE_WORKING_RAM)
    ∧ (L.BASE_IO ≠ L.BASE_BIOS ∧ L.BASE_IO ≠ L.BASE_WORKING_RAM
      ∧ L.BASE_IO ≠ L.BASE_WORKING_IRAM) := by
  have h := hL.1
  simp only [Layout.bases, List.nodup_cons, List.mem_cons, List.mem_singleton, not_or,
    List.not_mem_nil, not_false_eq_true, List.nodup_nil, and_true] at h
  refine ⟨⟨?_, ?_, ?_⟩, ?_, ?_, ?_⟩ <;> exact fun e => by simp [e] at h

theorem Layout.WellFormed.cart_ne {L : Layout} (hL : L.WellFormed) {c : Nat}
    (hc : c ∈ L.cartBases) :
    c ≠ L.BASE_BIOS ∧ c ≠ L.BASE_WORKING_RAM ∧ c ≠ L.BASE_WORKING_IRAM ∧ c ≠ L.BASE_IO
      ∧ c ≠ L.BASE_PALETTE_RAM ∧ c ≠ L.BASE_VRAM ∧ c ≠ L.BASE_OAM := by
  have h := hL.1
  simp only [Layout.bases, List.nodup_cons, List.mem_cons, List.mem_singleton, not_or,
    List.not_mem_nil, not_false_eq_true, List.nodup_nil, and_true] at h
  simp only [Layout.cartBases, List.mem_cons, List.mem_singleton, List.not_mem_nil,
    or_false] at hc
  rcases hc with rfl | rfl | rfl | rfl | rfl | rfl <;>
    (refine ⟨?_, ?_, ?_, ?_, ?_, ?_, ?_⟩ <;> exact fun e => by simp [e] at h)

theorem mem_cartBases_iff (L : Layout) (r : Nat) :
    (r = L.BASE_CART0 ∨ r = L.BASE_CART0_EX ∨ r = L.BASE_CART1 ∨ r = L.BASE_CART1_EX
      ∨ r = L.BASE_CART2 ∨ r = L.BASE_CART2_EX) ↔ r ∈ L.cartBases := by
  simp [Layout.cartBases]

/-! ## The branch each operation takes -/

theorem GBALoad32_wram {L : Layout} (hL : L.WellFormed) (s : State) {a : Nat}
    (hr : upperBits L a = L.BASE_WORKING_RAM) :
    GBALoad32 L s a = (s.loadElem s.memory.wram 4 ((a &&& (L.SIZE_WORKING_RAM - 1)) >>> 2)).map (toSigned 32) := by
  obtain ⟨⟨h1, -, -⟩, -⟩ := hL.pairs
  simp only [GBALoad32, hr, if_neg h1, if_true]

theorem GBALoad32_iwram {L : Layout} (hL : L.WellFormed) (s : State) {a : Nat}
    (hr : upperBits L a = L.BASE_WORKING_IRAM) :
    GBALoad32 L s a = (s.loadElem s.memory.iwram 4 ((a &&& (L.SIZE_WORKING_IRAM - 1)) >>> 2)).map (toSigned 32) := by
  obtain ⟨⟨-, h2, h3⟩, -⟩ := hL.pairs
  simp only [GBALoad32, hr, if_neg h2, if_neg h3, if_true]

theorem GBALoad32_cart {L : Layout} (hL : L.WellFormed) (s : State) {a : Nat}
    (hr : upperBits L a ∈ L.cartBases) :
    GBALoad32 L s a = (s.loadElem s.memory.rom 4 ((a &&& (L.SIZE_CART0 - 1)) >>> 2)).map (toSigned 32) := by
  obtain ⟨h1, h2, h3, h4, h5, h6, h7⟩ := hL.cart_ne hr
  simp only [GBALoad32, mem_cartBases_iff, if_neg h1, if_neg h2, if_neg h3, if_neg h4, if_neg h5,
    if_neg h6, if_neg h7, if_pos hr]

theorem GBALoad32_zero (L : Layout) (s : State) {a : Nat}
    (h : upperBits L a = L.BASE_BIOS ∨ (upperBits L a ≠ L.BASE_WORKING_RAM
      ∧ upperBits L a ≠ L.BASE_WORKING_IRAM ∧ upperBits L a ∉ L.cartBases)) :
    GBALoad32 L s a = some 0 := by
  rcases h with h | ⟨h1, h2, h3⟩
  · simp only [GBALoad32, h, if_true]
  · simp only [GBALoad32, mem_cartBases_iff, if_neg h1, if_neg h2, if_neg h3, ite_self]

theorem GBALoad16_wram {L : Layout} (hL : L.WellFormed) (s : State) {a : Nat}
    (hr : upperBits L a = L.BASE_WORKING_RAM) :
    GBALoad16 L s a = (s.loadElem s.memory.wram 2 ((a &&& (L.SIZE_WORKING_RAM - 1)) >>> 1)).map (toSigned 16) := by
  obtain ⟨⟨h1, -, -⟩, -⟩ := hL.pairs
  simp only [GBALoad16, hr, if_neg h1, if_true]

theorem GBALoad16_iwram {L : Layout} (hL : L.WellFormed) (s : State) {a : Nat}
    (hr : upperBits L a = L.BASE_WORKING_IRAM) :
    GBALoad16 L s a = (s.loadElem s.memory.iwram 2 ((a &&& (L.SIZE_WORKING_IRAM - 1)) >>> 1)).map (toSigned 16) := by
  obtain ⟨⟨-, h2, h3⟩, -⟩ := hL.pairs
  simp only [GBALoad16, hr, if_neg h2, if_neg h3, if_true]

theorem GBALoad16_cart {L : Layout} (hL : L.WellFormed) (s : State) {a : Nat}
    (hr : upperBits L a ∈ L.cartBases) :
    GBALoad16 L s a = (s.loadElem s.memory.rom 2 ((a &&& (L.SIZE_CART0 - 1)) >>> 1)).map (toSigned 16) := by
  obtain ⟨h1, h2, h3, h4, h5, h6, h7⟩ := hL.cart_ne hr
  simp only [GBALoad16, mem_cartBases_iff, if_neg h1, if_neg h2, if_neg h3, if_neg h4, if_neg h5,
    if_neg h6, if_neg h7, if_pos hr]

theorem GBALoad16_zero (L : Layout) (s : State) {a : Nat}
    (h : upperBits L a = L.BASE_BIOS ∨ (upperBits L a ≠ L.BASE_WORKING_RAM
      ∧ upperBits L a ≠ L.BASE_WORKING_IRAM ∧ upperBits L a ∉ L.cartBases)) :
    GBALoad16 L s a = some 0 := by
  rcases h with h | ⟨h1, h2, h3⟩
  · simp only [GBALoad16, h, if_true]
  · simp only [GBALoad16, mem_cartBases_iff, if_neg h1, if_neg h2, if_neg h3, ite_self]

theorem GBALoadU16_wram {L : Layout} (hL : L.WellFormed) (s : State) {a : Nat}
    (hr : upperBits L a = L.BASE_WORKING_RAM) :
    GBALoadU16 L s a = s.loadElem s.memory.wram 2 ((a &&& (L.SIZE_WORKING_RAM - 1)) >>> 1) := by
  obtain ⟨⟨h1, -, -⟩, -⟩ := hL.pairs
  simp only [GBALoadU16, hr, if_neg h1, if_true]

theorem GBALoadU16_iwram {L : Layout} (hL : L.WellFormed) (s : State) {a : Nat}
    (hr : upperBits L a = L.BASE_WORKING_IRAM) :
    GBALoadU16 L s a = s.loadElem s.memory.iwram 2 ((a &&& (L.SIZE_WORKING_IRAM - 1)) >>> 1) := by
  obtain ⟨⟨-, h2, h3⟩, -⟩ := hL.pairs
  simp only [GBALoadU16, hr, if_neg h2, if_neg h3, if_true]

theorem GBALoadU16_cart {L : Layout} (hL : L.WellFormed) (s : State) {a : Nat}
    (hr : upperBits L a ∈ L.cartBases) :
    GBALoadU16 L s a = s.loadElem s.memory.rom 2 ((a &&& (L.SIZE_CART0 - 1)) >>> 1) := by
  obtain ⟨h1, h2, h3, h4, h5, h6, h7⟩ := hL.cart_ne hr
  simp only [GBALoadU16, mem_cartBases_iff, if_neg h1, if_neg h2, if_neg h3, if_neg h4, if_neg h5,
    if_neg h6, if_neg h7, if_pos hr]

theorem GBALoadU16_zero (L : Layout) (s : State) {a : Nat}
    (h : upperBits L a = L.BASE_BIOS ∨ (upperBits L a ≠ L.BASE_WORKING_RAM
      ∧ upperBits L a ≠ L.BASE_WORKING_IRAM ∧ upperBits L a ∉ L.cartBases)) :
    GBALoadU16 L s a = some 0 := by
  rcases h with h | ⟨h1, h2, h3⟩
  · simp only [GBALoadU16, h, if_true]
  · simp only [GBALoadU16, mem_cartBases_iff, if_neg h1, if_neg h2, if_neg h3, ite_self]

theorem GBALoad8_wram {L : Layout} (hL : L.WellFormed) (s : State) {a : Nat}
    (hr : upperBits L a = L.BASE_WORKING_RAM) :
    GBALoad8 L s a = (s.loadElem s.memory.wram 1 (a &&& (L.SIZE_WORKING_RAM - 1))).map (toSigned 8) := by
  obtain ⟨⟨h1, -, -⟩, -⟩ := hL.pairs
  simp only [GBALoad8, hr, if_neg h1, if_true]

theorem GBALoad8_iwram {L : Layout} (hL : L.WellFormed) (s : State) {a : Nat}
    (hr : upperBits L a = L.BASE_WORKING_IRAM) :
    GBALoad8 L s a = (s.loadElem s.memory.iwram 1 (a &&& (L.SIZE_WORKING_IRAM - 1))).map (toSigned 8) := by
  obtain ⟨⟨-, h2, h3⟩, -⟩ := hL.pairs
  simp only [GBALoad8, hr, if_neg h2, if_neg h3, if_true]

theorem GBALoad8_cart {L : Layout} (hL : L.WellFormed) (s : State) {a : Nat}
    (hr : upperBits L a ∈ L.cartBases) :
    GBALoad8 L s a = (s.loadElem s.memory.rom 1 (a &&& (L.SIZE_CART0 - 1))).map (toSigned 8) := by
  obtain ⟨h1, h2, h3, h4, h5, h6, h7⟩ := hL.cart_ne hr
  simp only [GBALoad8, mem_cartBases_iff, if_neg h1, if_neg h2, if_neg h3, if_neg h4, if_neg h5,
    if_neg h6, if_neg h7, if_pos hr]

theorem GBALoad8_zero (L : Layout) (s : State) {a : Nat}
    (h : upperBits L a = L.BASE_BIOS ∨ (upperBits L a ≠ L.BASE_WORKING_RAM
      ∧ upperBits L a ≠ L.BASE_WORKING_IRAM ∧ upperBits L a ∉ L.cartBases)) :
    GBALoad8 L s a = some 0 := by
  rcases h with h | ⟨h1, h2, h3⟩
  · simp only [GBALoad8, h, if_true]
  · simp only [GBALoad8, mem_cartBases_iff, if_neg h1, if_neg h2, if_neg h3, ite_self]

theorem GBALoadU8_wram {L : Layout} (hL : L.WellFormed) (s : State) {a : Nat}
    (hr : upperBits L a = L.BASE_WORKING_RAM) :
    GBALoadU8 L s a = s.loadElem s.memory.wram 1 (a &&& (L.SIZE_WORKING_RAM - 1)) := by
  obtain ⟨⟨h1, -, -⟩, -⟩ := hL.pairs
  simp only [GBALoadU8, hr, if_neg h1, if_true]

theorem GBALoadU8_iwram {L : Layout} (hL : L.WellFormed) (s : State) {a : Nat}
    (hr : upperBits L a = L.BASE_WORKING_IRAM) :
    GBALoadU8 L s a = s.loadElem s.memory.iwram 1 (a &&& (L.SIZE_WORKING_IRAM - 1)) := by
  obtain ⟨⟨-, h2, h3⟩, -⟩ := hL.pairs
  simp only [GBALoadU8, hr, if_neg h2, if_neg h3, if_true]

theorem GBALoadU8_cart {L : Layout} (hL : L.WellFormed) (s : State) {a : Nat}
    (hr : upperBits L a ∈ L.cartBases) :
    GBALoadU8 L s a = s.loadElem s.memory.rom 1 (a &&& (L.SIZE_CART0 - 1)) := by
  obtain ⟨h1, h2, h3, h4, h5, h6, h7⟩ := hL.cart_ne hr
  simp only [GBALoadU8, mem_cartBases_iff, if_neg h1, if_neg h2, if_neg h3, if_neg h4, if_neg h5,
    if_neg h6, if_neg h7, if_pos hr]

theorem GBALoadU8_zero (L : Layout) (s : State) {a : Nat}
    (h : upperBits L a = L.BASE_BIOS ∨ (upperBits L a ≠ L.BASE_WORKING_RAM
      ∧ upperBits L a ≠ L.BASE_WORKING_IRAM ∧ upperBits L a ∉ L.cartBases)) :
    GBALoadU8 L s a = some 0 := by
  rcases h with h | ⟨h1, h2, h3⟩
  · simp only [GBALoadU8, h, if_true]
  · simp only [GBALoadU8, mem_cartBases_iff, if_neg h1, if_neg h2, if_neg h3, ite_self]

theorem GBAStore32_wram (L : Layout) (s : State) {a : Nat} (v : Int)
    (hr : upperBits L a = L.BASE_WORKING_RAM) :
    GBAStore32 L s a v = s.storeElem s.memory.wram 4 ((a &&& (L.SIZE_WORKING_RAM - 1)) >>> 2) (toUnsigned 32 v) := by
  simp only [GBAStore32, hr, if_true]

theorem GBAStore32_iwram {L : Layout} (hL : L.WellFormed) (s : State) {a : Nat} (v : Int)
    (hr : upperBits L a = L.BASE_WORKING_IRAM) :
    GBAStore32 L s a v = s.storeElem s.memory.iwram 4 ((a &&& (L.SIZE_WORKING_IRAM - 1)) >>> 2) (toUnsigned 32 v) := by
  obtain ⟨⟨-, -, h3⟩, -⟩ := hL.pairs
  simp only [GBAStore32, hr, if_neg h3, if_true]

theorem GBAStore16_wram (L : Layout) (s : State) {a : Nat} (v : Int)
    (hr : upperBits L a = L.BASE_WORKING_RAM) :
    GBAStore16 L s a v = s.storeElem s.memory.wram 2 ((a &&& (L.SIZE_WORKING_RAM - 1)) >>> 1) (toUnsigned 16 v) := by
  simp only [GBAStore16, hr, if_true]

theorem GBAStore16_iwram {L : Layout} (hL : L.WellFormed) (s : State) {a : Nat} (v : Int)
    (hr : upperBits L a = L.BASE_WORKING_IRAM) :
    GBAStore16 L s a v = s.storeElem s.memory.iwram 2 ((a &&& (L.SIZE_WORKING_IRAM - 1)) >>> 1) (toUnsigned 16 v) := by
  obtain ⟨⟨-, -, h3⟩, -⟩ := hL.pairs
  simp only [GBAStore16, hr, if_neg h3, if_true]

theorem GBAStore8_wram (L : Layout) (s : State) {a : Nat} (v : Int)
    (hr : upperBits L a = L.BASE_WORKING_RAM) :
    GBAStore8 L s a v = s.storeElem s.memory.wram 1 (a &&& (L.SIZE_WORKING_RAM - 1)) (toUnsigned 8 v) := by
  simp only [GBAStore8, hr, if_true]

theorem GBAStore8_iwram {L : Layout} (hL : L.WellFormed) (s : State) {a : Nat} (v : Int)
    (hr : upperBits L a = L.BASE_WORKING_IRAM) :
    GBAStore8 L s a v = s.storeElem s.memory.iwram 1 (a &&& (L.SIZE_WORKING_IRAM - 1)) (toUnsigned 8 v) := by
  obtain ⟨⟨-, -, h3⟩, -⟩ := hL.pairs
  simp only [GBAStore8, hr, if_neg h3, if_true]

theorem GBAStore32_other (L : Layout) (s : State) {a : Nat} (v : Int)
    (h1 : upperBits L a ≠ L.BASE_WORKING_RAM) (h2 : upperBits L a ≠ L.BASE_WORKING_IRAM) :
    GBAStore32 L s a v = some s := by
  simp only [GBAStore32, if_neg h1, if_neg h2, ite_self]

theorem GBAStore8_other (L : Layout) (s : State) {a : Nat} (v : Int)
    (h1 : upperBits L a ≠ L.BASE_WORKING_RAM) (h2 : upperBits L a ≠ L.BASE_WORKING_IRAM) :
    GBAStore8 L s a v = some s := by
  simp only [GBAStore8, if_neg h1, if_neg h2, ite_self]

theorem GBAStore16_other (L : Layout) (s : State) {a : Nat} (v : Int)
    (h1 : upperBits L a ≠ L.BASE_WORKING_RAM) (h2 : upperBits L a ≠ L.BASE_WORKING_IRAM)
    (h3 : upperBits L a ≠ L.BASE_IO) :
    GBAStore16 L s a v = some s := by
  simp only [GBAStore16, if_neg h1, if_neg h2, if_neg h3, ite_self]

theorem GBAStore16_io {L : Layout} (hL : L.WellFormed) (s : State) {a : Nat} (v : Int)
    (hr : upperBits L a = L.BASE_IO) :
    GBAStore16 L s a v = some { s with memory := { s.memory with
      p := GBAIOWrite s.memory.p (a &&& (L.SIZE_IO - 1)) v } } := by
  obtain ⟨-, -, h2, h3⟩ := hL.pairs
  simp only [GBAStore16, hr, if_neg h2, if_neg h3, if_true]

/-! ## Store followed by load -/

theorem State.loadElem_storeElem (s : State) (p : Ptr) (width idx u size : Nat)
    (hm : s.Mapped p size) (hb : width * idx + width ≤ size) :
    ∃ s', s.storeElem p width idx u = some s' ∧ s'.memory = s.memory
      ∧ s'.loadElem p width idx = some (u % 256 ^ width) := by
  obtain ⟨b, hd, hsz⟩ := hm
  cases p with
  | null => simp [Heap.deref] at hd
  | mapFailed => simp [Heap.deref] at hd
  | block id =>
    simp only [Heap.deref] at hd
    obtain ⟨b', hw⟩ := Buffer.writeLE_isSome width b (width * idx) u (by omega)
    refine ⟨{ s with heap := Function.update s.heap id (some b') }, ?_, rfl, ?_⟩
    · simp only [State.storeElem, hd, hw]
    · simp only [State.loadElem, Heap.deref, Function.update_same]
      exact Buffer.readLE_writeLE width b b' _ u hw

theorem bootState_ramPresent : bootState.RamPresent gbaLayout :=
  ⟨⟨Buffer.zero 0x40000, rfl, by decide⟩, ⟨Buffer.zero 0x8000, rfl, by decide⟩⟩

/-- C1. Store/load round trip at each width: in a state whose Work RAM and Internal
Work RAM are present, at an address that selects either region, a 32-bit store followed
by a 32-bit load at the same address returns the stored value; a 16-bit store followed
by the signed 16-bit load returns the value and the unsigned load returns its bit
pattern; likewise at 8 bits. -/
theorem store_load_round_trip (L : Layout) (hL : L.WellFormed) (s : State)
    (hs : s.RamPresent L) (a : Nat)
    (ha : upperBits L a = L.BASE_WORKING_RAM ∨ upperBits L a = L.BASE_WORKING_IRAM) :
    (∀ v : Int, -2 ^ 31 ≤ v → v < 2 ^ 31 →
      ∃ s', GBAStore32 L s a v = some s' ∧ GBALoad32 L s' a = some v)
    ∧ (∀ v : Int, -2 ^ 15 ≤ v → v < 2 ^ 15 →
      ∃ s', GBAStore16 L s a v = some s' ∧ GBALoad16 L s' a = some v
        ∧ GBALoadU16 L s' a = some (toUnsigned 16 v))
    ∧ (∀ v : Int, -2 ^ 7 ≤ v → v < 2 ^ 7 →
      ∃ s', GBAStore8 L s a v = some s' ∧ GBALoad8 L s' a = some v
        ∧ GBALoadU8 L s' a = some (toUnsigned 8 v)) := by
  obtain ⟨hw, hi⟩ := hs
  have hSw : sizeOk L.SIZE_WORKING_RAM := hL.2.1
  have hSi : sizeOk L.SIZE_WORKING_IRAM := hL.2.2.1
  rcases ha with ha | ha
  · refine ⟨fun v h1 h2 => ?_, fun v h1 h2 => ?_, fun v h1 h2 => ?_⟩
    · obtain ⟨s', e1, e2, e3⟩ := State.loadElem_storeElem s s.memory.wram 4 _ (toUnsigned 32 v) _
        hw (word_index_bound hSw a)
      refine ⟨s', by rw [GBAStore32_wram L s v ha, e1], ?_⟩
      rw [GBALoad32_wram hL s' ha, e2, e3, Option.map_some', toSigned_toUnsigned_32 v h1 h2]
    · obtain ⟨s', e1, e2, e3⟩ := State.loadElem_storeElem s s.memory.wram 2 _ (toUnsigned 16 v) _
        hw (half_index_bound hSw a)
      refine ⟨s', by rw [GBAStore16_wram L s v ha, e1], ?_, ?_⟩
      · rw [GBALoad16_wram hL s' ha, e2, e3, Option.map_some', toSigned_toUnsigned_16 v h1 h2]
      · rw [GBALoadU16_wram hL s' ha, e2, e3, toUnsigned_mod_16]
    · obtain ⟨s', e1, e2, e3⟩ := State.loadElem_storeElem s s.memory.wram 1 _ (toUnsigned 8 v) _
        hw (byte_index_bound hSw a)
      refine ⟨s', by rw [GBAStore8_wram L s v ha, e1], ?_, ?_⟩
      · rw [GBALoad8_wram hL s' ha, e2, e3, Option.map_some', toSigned_toUnsigned_8 v h1 h2]
      · rw [GBALoadU8_wram hL s' ha, e2, e3, toUnsigned_mod_8]
  · refine ⟨fun v h1 h2 => ?_, fun v h1 h2 => ?_, fun v h1 h2 => ?_⟩
    · obtain ⟨s', e1, e2, e3⟩ := State.loadElem_storeElem s s.memory.iwram 4 _ (toUnsigned 32 v) _
        hi (word_index_bound hSi a)
      refine ⟨s', by rw [GBAStore32_iwram hL s v ha, e1], ?_⟩
      rw [GBALoad32_iwram hL s' ha, e2, e3, Option.map_some', toSigned_toUnsigned_32 v h1 h2]
    · obtain ⟨s', e1, e2, e3⟩ := State.loadElem_storeElem s s.memory.iwram 2 _ (toUnsigned 16 v) _
        hi (half_index_bound hSi a)
      refine ⟨s', by rw [GBAStore16_iwram hL s v ha, e1], ?_, ?_⟩
      · rw [GBALoad16_iwram hL s' ha, e2, e3, Option.map_some', toSigned_toUnsigned_16 v h1 h2]
      · rw [GBALoadU16_iwram hL s' ha, e2, e3, toUnsigned_mod_16]
    · obtain ⟨s', e1, e2, e3⟩ := State.loadElem_storeElem s s.memory.iwram 1 _ (toUnsigned 8 v) _
        hi (byte_index_bound hSi a)
      refine ⟨s', by rw [GBAStore8_iwram hL s v ha, e1], ?_, ?_⟩
      · rw [GBALoad8_iwram hL s' ha, e2, e3, Option.map_some', toSigned_toUnsigned_8 v h1 h2]
      · rw [GBALoadU8_iwram hL s' ha, e2, e3, toUnsigned_mod_8]

/-- C1, witness: on the freshly initialised bus, `store32(0x03000000, 0x12345678)`
followed by `load32(0x03000000)` returns `0x12345678`; in Work RAM, at the odd address
`0x02000123`, the 16-bit value `-2` is read back as `-2` and as `0xFFFE`, and the 8-bit
value `-128` as `-128` and as `0x80`. -/
theorem store_load_round_trip_witness :
    (∃ s', GBAStore32 gbaLayout bootState 0x03000000 0x12345678 = some s'
      ∧ GBALoad32 gbaLayout s' 0x03000000 = some 0x12345678)
    ∧ (∃ s', GBAStore16 gbaLayout bootState 0x02000123 (-2) = some s'
      ∧ GBALoad16 gbaLayout s' 0x02000123 = some (-2)
      ∧ GBALoadU16 gbaLayout s' 0x02000123 = some (toUnsigned 16 (-2)))
    ∧ toUnsigned 16 (-2) = 0xFFFE
    ∧ (∃ s', GBAStore8 gbaLayout bootState 0x02000123 (-128) = some s'
      ∧ GBALoad8 gbaLayout s' 0x02000123 = some (-128)
      ∧ GBALoadU8 gbaLayout s' 0x02000123 = some (toUnsigned 8 (-128)))
    ∧ toUnsigned 8 (-128) = 0x80 :=
  ⟨(store_load_round_trip gbaLayout (by decide) bootState bootState_ramPresent 0x03000000
      (Or.inr (by decide))).1 0x12345678 (by decide) (by decide),
    (store_load_round_trip gbaLayout (by decide) bootState bootState_ramPresent 0x02000123
      (Or.inl (by decide))).2.1 (-2) (by decide) (by decide),
    by decide,
    (store_load_round_trip gbaLayout (by decide) bootState bootState_ramPresent 0x02000123
      (Or.inl (by decide))).2.2 (-128) (by decide) (by decide),
    by decide⟩

/-! ## Mirroring -/

theorem add_size_and_mask {n : Nat} (h : sizeOk n) (a : Nat) :
    (a + n) &&& (n - 1) = a &&& (n - 1) := by
  rw [and_size_mask h, and_size_mask h, Nat.add_mod_right]

theorem store32_load32_wram {L : Layout} (hL : L.WellFormed) (s : State)
    (hs : s.RamPresent L) {a b : Nat} (ha : upperBits L a = L.BASE_WORKING_RAM)
    (hb : upperBits L b = L.BASE_WORKING_RAM)
    (hab : a &&& (L.SIZE_WORKING_RAM - 1) = b &&& (L.SIZE_WORKING_RAM - 1))
    (v : Int) (h1 : -2 ^ 31 ≤ v) (h2 : v < 2 ^ 31) :
    ∃ s', GBAStore32 L s a v = some s' ∧ GBALoad32 L s' b = some v := by
  obtain ⟨s', e1, e2, e3⟩ := State.loadElem_storeElem s s.memory.wram 4 _ (toUnsigned 32 v) _
    hs.1 (word_index_bound hL.2.1 a)
  refine ⟨s', by rw [GBAStore32_wram L s v ha, e1], ?_⟩
  rw [GBALoad32_wram hL s' hb, e2, ← hab, e3, Option.map_some', toSigned_toUnsigned_32 v h1 h2]

theorem store32_load32_iwram {L : Layout} (hL : L.WellFormed) (s : State)
    (hs : s.RamPresent L) {a b : Nat} (ha : upperBits L a = L.BASE_WORKING_IRAM)
    (hb : upperBits L b = L.BASE_WORKING_IRAM)
    (hab : a &&& (L.SIZE_WORKING_IRAM - 1) = b &&& (L.SIZE_WORKING_IRAM - 1))
    (v : Int) (h1 : -2 ^ 31 ≤ v) (h2 : v < 2 ^ 31) :
    ∃ s', GBAStore32 L s a v = some s' ∧ GBALoad32 L s' b = some v := by
  obtain ⟨s', e1, e2, e3⟩ := State.loadElem_storeElem s s.memory.iwram 4 _ (toUnsigned 32 v) _
    hs.2 (word_index_bound hL.2.2.1 a)
  refine ⟨s', by rw [GBAStore32_iwram hL s v ha, e1], ?_⟩
  rw [GBALoad32_iwram hL s' hb, e2, ← hab, e3, Option.map_some', toSigned_toUnsigned_32 v h1 h2]

/-- C3. BIOS loads return 0: in every state, whatever block `bios` points to, every
address that selects `BASE_BIOS` reads as 0 at every width and signedness. -/
theorem bios_loads_zero (L : Layout) (s : State) (a : Nat)
    (ha : upperBits L a = L.BASE_BIOS) :
    GBALoad32 L s a = some 0 ∧ GBALoad16 L s a = some 0 ∧ GBALoadU16 L s a = some 0
      ∧ GBALoad8 L s a = some 0 ∧ GBALoadU8 L s a = some 0 :=
  ⟨GBALoad32_zero L s (Or.inl ha), GBALoad16_zero L s (Or.inl ha),
    GBALoadU16_zero L s (Or.inl ha), GBALoad8_zero L s (Or.inl ha),
    GBALoadU8_zero L s (Or.inl ha)⟩

/-- C3, witness: with a BIOS image of `0xFF` bytes attached, the block is mapped and
holds `0xFF` at offset 0, and every load at address `0x00000000` still returns 0. -/
theorem bios_loads_zero_witness :
    biosAttachedState.loadElem biosAttachedState.memory.bios 2 0 = some 0xFFFF
    ∧ GBALoad32 gbaLayout biosAttachedState 0 = some 0
    ∧ GBALoad16 gbaLayout biosAttachedState 0 = some 0
    ∧ GBALoadU16 gbaLayout biosAttachedState 0 = some 0
    ∧ GBALoad8 gbaLayout biosAttachedState 0 = some 0
    ∧ GBALoadU8 gbaLayout biosAttachedState 0 = some 0 :=
  ⟨by decide, bios_loads_zero gbaLayout biosAttachedState 0 (by decide)⟩

theorem Layout.WellFormed.unbacked_ne {L : Layout} (hL : L.WellFormed) {r : Nat}
    (h : r = L.BASE_PALETTE_RAM ∨ r = L.BASE_VRAM ∨ r = L.BASE_OAM ∨ r = L.BASE_CART_SRAM
      ∨ r = L.BASE_IO ∨ r ∉ L.bases) :
    r ≠ L.BASE_WORKING_RAM ∧ r ≠ L.BASE_WORKING_IRAM ∧ r ∉ L.cartBases := by
  have hn := hL.1
  simp only [Layout.bases, List.nodup_cons, List.mem_cons, List.mem_singleton, not_or,
    List.not_mem_nil, not_false_eq_true, List.nodup_nil, and_true] at hn
  simp only [Layout.cartBases, Layout.bases, List.mem_cons, List.mem_singleton,
    List.not_mem_nil, or_false, not_or] at h ⊢
  rcases h with rfl | rfl | rfl | rfl | rfl | h
  · refine ⟨?_, ?_, ?_, ?_, ?_, ?_, ?_, ?_⟩ <;> exact fun e => by simp [e] at hn
  · refine ⟨?_, ?_, ?_, ?_, ?_, ?_, ?_, ?_⟩ <;> exact fun e => by simp [e] at hn
  · refine ⟨?_, ?_, ?_, ?_, ?_, ?_, ?_, ?_⟩ <;> exact fun e => by simp [e] at hn
  · refine ⟨?_, ?_, ?_, ?_, ?_, ?_, ?_, ?_⟩ <;> exact fun e => by simp [e] at hn
  · refine ⟨?_, ?_, ?_, ?_, ?_, ?_, ?_, ?_⟩ <;> exact fun e => by simp [e] at hn
  · obtain ⟨-, h1, h2, -, -, -, -, h7, h8, h9, h10, h11, h12, -⟩ := h
    exact ⟨h1, h2, h7, h8, h9, h10, h11, h12⟩

/-- C4. Unmapped-region loads return 0: in every state, at every address whose upper
bits are the Palette RAM, Video RAM, Object Attributes, Cartridge Static RAM or I/O
base, or no named base at all, all five loads return 0. -/
theorem unmapped_loads_zero (L : Layout) (hL : L.WellFormed) (s : State) (a : Nat)
    (ha : upperBits L a = L.BASE_PALETTE_RAM ∨ upperBits L a = L.BASE_VRAM
      ∨ upperBits L a = L.BASE_OAM ∨ upperBits L a = L.BASE_CART_SRAM
      ∨ upperBits L a = L.BASE_IO ∨ upperBits L a ∉ L.bases) :
    GBALoad32 L s a = some 0 ∧ GBALoad16 L s a = some 0 ∧ GBALoadU16 L s a = some 0
      ∧ GBALoad8 L s a = some 0 ∧ GBALoadU8 L s a = some 0 :=
  have h := Or.inr (hL.unbacked_ne ha)
  ⟨GBALoad32_zero L s h, GBALoad16_zero L s h, GBALoadU16_zero L s h, GBALoad8_zero L s h,
    GBALoadU8_zero L s h⟩

/-- C4, witness: on the console with a cartridge attached, address `0x0F000004`, which
no region claims, and address `0x06000100` in Video RAM. -/
theorem unmapped_loads_zero_witness :
    (GBALoad32 gbaLayout romAttachedState 0x0F000004 = some 0
      ∧ GBALoad16 gbaLayout romAttachedState 0x0F000004 = some 0
      ∧ GBALoadU16 gbaLayout romAttachedState 0x0F000004 = some 0
      ∧ GBALoad8 gbaLayout romAttachedState 0x0F000004 = some 0
      ∧ GBALoadU8 gbaLayout romAttachedState 0x0F000004 = some 0)
    ∧ (GBALoad32 gbaLayout romAttachedState 0x06000100 = some 0
      ∧ GBALoad16 gbaLayout romAttachedState 0x06000100 = some 0
      ∧ GBALoadU16 gbaLayout romAttachedState 0x06000100 = some 0
      ∧ GBALoad8 gbaLayout romAttachedState 0x06000100 = some 0
      ∧ GBALoadU8 gbaLayout romAttachedState 0x06000100 = some 0) :=
  ⟨unmapped_loads_zero gbaLayout (by decide) romAttachedState 0x0F000004
      (Or.inr (Or.inr (Or.inr (Or.inr (Or.inr (by decide)))))),
    unmapped_loads_zero gbaLayout (by decide) romAttachedState 0x06000100
      (Or.inr (Or.inl (by decide)))⟩

/-! ## Stores that are discarded -/

/-- C5. ROM writes are no-ops: at every address that selects one of the six cartridge
aliases, each of the three stores returns the state it was given; so whatever state a
store returns, every load at that address returns in it what it returned before. -/
theorem rom_stores_noop (L : Layout) (hL : L.WellFormed) (s : State) (a : Nat) (v : Int)
    (ha : upperBits L a ∈ L.cartBases) :
    (GBAStore32 L s a v = some s ∧ GBAStore16 L s a v = some s ∧ GBAStore8 L s a v = some s)
    ∧ ∀ s', GBAStore32 L s a v = some s' ∨ GBAStore16 L s a v = some s'
        ∨ GBAStore8 L s a v = some s' →
      GBALoad32 L s' a = GBALoad32 L s a ∧ GBALoad16 L s' a = GBALoad16 L s a
        ∧ GBALoadU16 L s' a = GBALoadU16 L s a ∧ GBALoad8 L s' a = GBALoad8 L s a
        ∧ GBALoadU8 L s' a = GBALoadU8 L s a := by
  obtain ⟨-, h2, h3, h4, -⟩ := hL.cart_ne ha
  have e32 := GBAStore32_other L s v h2 h3
  have e16 := GBAStore16_other L s v h2 h3 h4
  have e8 := GBAStore8_other L s v h2 h3
  refine ⟨⟨e32, e16, e8⟩, fun s' hs' => ?_⟩
  have hss : s' = s := by
    rw [e32, e16, e8] at hs'
    simpa [eq_comm] using hs'
  subst hss
  exact ⟨rfl, rfl, rfl, rfl, rfl⟩

/-- C5, witness: the console with a cartridge attached, at `0x0B000010`, an alias the
store switches do not name, with the value `-1`. -/
theorem rom_stores_noop_witness :
    GBAStore32 gbaLayout romAttachedState 0x0B000010 (-1) = some romAttachedState
    ∧ GBAStore16 gbaLayout romAttachedState 0x0B000010 (-1) = some romAttachedState
    ∧ GBAStore8 gbaLayout romAttachedState 0x0B000010 (-1) = some romAttachedState :=
  (rom_stores_noop gbaLayout (by decide) romAttachedState 0x0B000010 (-1) (by decide)).1

/-! ## The upper bits of an address -/

theorem and_not_low (a m : Nat) (hm : m ≤ 32) :
    a &&& (0xFFFFFFFF ^^^ (2 ^ m - 1)) = (a % 2 ^ 32) / 2 ^ m * 2 ^ m := by
  have e : (0xFFFFFFFF : Nat) = 2 ^ 32 - 1 := by norm_num
  rw [e]
  apply Nat.eq_of_testBit_eq
  intro i
  rw [Nat.mul_comm, Nat.testBit_mul_pow_two, ← Nat.shiftRight_eq_div_pow, Nat.testBit_shiftRight,
    Nat.testBit_mod_two_pow, Nat.testBit_and, Nat.testBit_xor, Nat.testBit_two_pow_sub_one,
    Nat.testBit_two_pow_sub_one]
  by_cases h1 : i < m
  · have h2 : i < 32 := by omega
    simp [h1, h2]
  · have h3 : m + (i - m) = i := by omega
    simp [h1, h3]
    by_cases h2 : i < 32 <;> simp [h2]
    omega

theorem Layout.Aligned.window {L : Layout} (hA : L.Aligned) :
    ∃ m, m ≤ 32 ∧ L.OFFSET_MASK + 1 = 2 ^ m :=
  (Nat.dvd_prime_pow Nat.prime_two).1 hA.1

theorem upperBits_eq_div {L : Layout} (hA : L.Aligned) (a : Nat) :
    upperBits L a = (a % 2 ^ 32) / (L.OFFSET_MASK + 1) * (L.OFFSET_MASK + 1) := by
  obtain ⟨m, hm32, hm⟩ := hA.window
  have e : L.OFFSET_MASK = 2 ^ m - 1 := by omega
  rw [hm]
  unfold upperBits
  rw [e]
  exact and_not_low a m hm32

theorem upperBits_base_add {L : Layout} (hA : L.Aligned) {b : Nat} (hb : b ∈ L.bases)
    {k : Nat} (hk : k ≤ L.OFFSET_MASK) : upperBits L (b + k) = b := by
  rw [upperBits_eq_div hA]
  obtain ⟨⟨t, ht⟩, hall, -⟩ := hA
  obtain ⟨⟨q, hq⟩, hlt⟩ := hall b hb
  have hkW : k < L.OFFSET_MASK + 1 := by omega
  generalize L.OFFSET_MASK + 1 = W at *
  have hW : 0 < W := by omega
  subst hq
  have hqt : q < t := by
    rw [ht] at hlt
    exact lt_of_mul_lt_mul_left hlt (Nat.zero_le W)
  have hsum : W * q + k < 2 ^ 32 := by
    have : W * (q + 1) ≤ W * t := Nat.mul_le_mul_left W hqt
    rw [ht]
    rw [Nat.mul_add, Nat.mul_one] at this
    omega
  rw [Nat.mod_eq_of_lt hsum, Nat.mul_add_div hW, Nat.div_eq_of_lt hkW, Nat.add_zero,
    Nat.mul_comm]

theorem base_add_and_size {L : Layout} (hA : L.Aligned) {b : Nat} (hb : b ∈ L.bases)
    {S : Nat} (hS : sizeOk S) (hSW : S ≤ L.OFFSET_MASK + 1) {k : Nat} (hk : k < S) :
    (b + k) &&& (S - 1) = k := by
  rw [and_size_mask hS]
  obtain ⟨m, -, hm⟩ := hA.window
  obtain ⟨j, -, rfl⟩ := sizeOk_pow hS
  have hjm : j ≤ m := by
    rw [hm] at hSW
    exact (Nat.pow_le_pow_iff_right (by norm_num)).1 hSW
  have hdvd : 2 ^ j ∣ b := (pow_dvd_pow 2 hjm).trans (hm ▸ (hA.2.1 b hb).1)
  rw [Nat.add_mod, Nat.mod_eq_zero_of_dvd hdvd, Nat.zero_add, Nat.mod_mod, Nat.mod_eq_of_lt hk]

theorem BASE_IO_mem_bases (L : Layout) : L.BASE_IO ∈ L.bases := by
  simp [Layout.bases]

/-! ## Stores to the I/O registers -/

/-- C6. I/O delegation: a 16-bit store at `BASE_IO + k` with `k < SIZE_IO` appends the
one call `(k, v)` to the collaborator's trace and changes nothing else; at any address
that selects `BASE_IO` the call carries the offset `a & (SIZE_IO - 1)`; the 8-bit and
32-bit stores there return the state unchanged, so they make no call. -/
theorem io_delegation (L : Layout) (hL : L.WellFormed) (hA : L.Aligned) (s : State)
    (v : Int) :
    (∀ k, k < L.SIZE_IO →
      GBAStore16 L s (L.BASE_IO + k) v = some { s with memory := { s.memory with
        p := { s.memory.p with ioWrites := s.memory.p.ioWrites ++ [(k, v)] } } })
    ∧ (∀ a, upperBits L a = L.BASE_IO →
      GBAStore16 L s a v = some { s with memory := { s.memory with
        p := { s.memory.p with
          ioWrites := s.memory.p.ioWrites ++ [(a &&& (L.SIZE_IO - 1), v)] } } }
      ∧ GBAStore32 L s a v = some s ∧ GBAStore8 L s a v = some s) := by
  obtain ⟨-, -, h2, h3⟩ := hL.pairs
  refine ⟨fun k hk => ?_, fun a ha => ⟨?_, ?_, ?_⟩⟩
  · have hr : upperBits L (L.BASE_IO + k) = L.BASE_IO :=
      upperBits_base_add hA (BASE_IO_mem_bases L) (by have := hA.2.2.2.1; omega)
    rw [GBAStore16_io hL s v hr,
      base_add_and_size hA (BASE_IO_mem_bases L) hA.2.2.1 hA.2.2.2.1 hk]
    rfl
  · rw [GBAStore16_io hL s v ha]
    rfl
  · exact GBAStore32_other L s v (ha ▸ h2) (ha ▸ h3)
  · exact GBAStore8_other L s v (ha ▸ h2) (ha ▸ h3)

/-- C6, witness: on the console, `store16(0x04000208, 1)` records the single call
`(0x208, 1)`, while `store32` and `store8` at that address record nothing. -/
theorem io_delegation_witness :
    GBAStore16 gbaLayout bootState (0x04000000 + 0x208) 1 =
      some { bootState with memory := { bootState.memory with
        p := { bootState.memory.p with
          ioWrites := bootState.memory.p.ioWrites ++ [(0x208, 1)] } } }
    ∧ GBAStore32 gbaLayout bootState 0x04000208 1 = some bootState
    ∧ GBAStore8 gbaLayout bootState 0x04000208 1 = some bootState :=
  have h := io_delegation gbaLayout (by decide) (by decide) bootState 1
  ⟨h.1 0x208 (by decide), (h.2 0x04000208 (by decide)).2⟩

/-! ## Cartridge loads and the ROM pointer -/

theorem Buffer.readLE_isSome (n : Nat) : ∀ (b : Buffer) (off : Nat),
    off + n ≤ b.size → ∃ u, b.readLE off n = some u := by
  induction n with
  | zero => intro b off _; exact ⟨0, rfl⟩
  | succ n ih =>
    intro b off h
    obtain ⟨hi, hhi⟩ := ih b (off + 1) (by omega)
    have hlt : off < b.size := by omega
    exact ⟨(b.data off).val + 256 * hi, by simp only [Buffer.readLE, Buffer.byte?, hlt, if_true, hhi]⟩

theorem State.loadElem_null (s : State) (width idx : Nat) :
    s.loadElem Ptr.null width idx = none := rfl

theorem State.loadElem_isSome (s : State) (p : Ptr) (width idx size : Nat)
    (hm : s.Mapped p size) (hb : width * idx + width ≤ size) :
    ∃ u, s.loadElem p width idx = some u := by
  obtain ⟨b, hd, hsz⟩ := hm
  obtain ⟨u, hu⟩ := Buffer.readLE_isSome width b (width * idx) (by omega)
  exact ⟨u, by simp only [State.loadElem, hd, hu]⟩

theorem cart_loads_isSome {L : Layout} (hL : L.WellFormed) (s : State) {a : Nat}
    (ha : upperBits L a ∈ L.cartBases) (h : s.Mapped s.memory.rom L.SIZE_CART0) :
    (∃ x, GBALoad32 L s a = some x) ∧ (∃ x, GBALoad16 L s a = some x)
      ∧ (∃ x, GBALoadU16 L s a = some x) ∧ (∃ x, GBALoad8 L s a = some x)
      ∧ (∃ x, GBALoadU8 L s a = some x) := by
  have hS : sizeOk L.SIZE_CART0 := hL.2.2.2
  rw [GBALoad32_cart hL s ha, GBALoad16_cart hL s ha, GBALoadU16_cart hL s ha,
    GBALoad8_cart hL s ha, GBALoadU8_cart hL s ha]
  obtain ⟨u4, h4⟩ := State.loadElem_isSome s _ 4 _ _ h (word_index_bound hS a)
  obtain ⟨u2, h2⟩ := State.loadElem_isSome s _ 2 _ _ h (half_index_bound hS a)
  obtain ⟨u1, h1⟩ := State.loadElem_isSome s _ 1 _ _ h (byte_index_bound hS a)
  simp only [h4, h2, h1, Option.map_some', Option.some.injEq, exists_eq', and_self]

theorem romAttachedState_mapped :
    romAttachedState.Mapped romAttachedState.memory.rom gbaLayout.SIZE_CART0 :=
  ⟨⟨0x2000000, fun i => Fin.ofNat (7 * i + 1)⟩, rfl, by decide⟩

/-- C8, what the code does: `mmap` reports failure with `MAP_FAILED`, which is not the
null pointer, so the test `!memory->wram || !memory->iwram` never holds.  Whatever the
two outcomes, `GBAMemoryInit` leaves the context's error fields as they were and calls
`munmap` for nothing; `GBAMemoryDeinit`, if called, leaves both pointers as they were.
On the console, with the Work RAM mapping failing and the other succeeding: `errno`
stays 0 (not `GBA_OUT_OF_MEMORY`), no message is set, nothing is released, `wram`
holds `MAP_FAILED`, and `iwram` still points to its mapped block. -/
theorem init_failure_not_reported :
    (∀ (L : Layout) (s : State) (rw ri : MmapResult),
      (GBAMemoryInit L s rw ri).memory.p = s.memory.p
        ∧ (GBAMemoryInit L s rw ri).munmaps = s.munmaps)
    ∧ (∀ (L : Layout) (s : State),
      (GBAMemoryDeinit L s).memory.wram = s.memory.wram
        ∧ (GBAMemoryDeinit L s).memory.iwram = s.memory.iwram)
    ∧ (GBAMemoryInit gbaLayout blankState MmapResult.failed (MmapResult.mapped 1)).memory.p.errno
        = 0
    ∧ gbaLayout.GBA_OUT_OF_MEMORY ≠ 0
    ∧ (GBAMemoryInit gbaLayout blankState MmapResult.failed (MmapResult.mapped 1)).memory.p.errstr
        = none
    ∧ (GBAMemoryInit gbaLayout blankState MmapResult.failed (MmapResult.mapped 1)).munmaps = []
    ∧ (GBAMemoryInit gbaLayout blankState MmapResult.failed (MmapResult.mapped 1)).memory.wram
        = Ptr.mapFailed
    ∧ (GBAMemoryInit gbaLayout blankState MmapResult.failed (MmapResult.mapped 1)).memory.iwram
        = Ptr.block 1
    ∧ ((GBAMemoryInit gbaLayout blankState MmapResult.failed (MmapResult.mapped 1)).heap 1).isSome
        = true := by
  refine ⟨fun L s rw ri => ?_, fun L s => ⟨rfl, rfl⟩, rfl, by decide, rfl, rfl, rfl, rfl, rfl⟩
  cases rw <;> cases ri <;> exact ⟨rfl, rfl⟩

/-! ## The selector -/

theorem GBASetActiveRegion_bios (L : Layout) (s : State) {a : Nat}
    (hr : upperBits L a = L.BASE_BIOS) :
    GBASetActiveRegion L s a = s.withCache s.memory.bios 0 := by
  simp only [GBASetActiveRegion, hr, if_true]

theorem GBASetActiveRegion_wram {L : Layout} (hL : L.WellFormed) (s : State) {a : Nat}
    (hr : upperBits L a = L.BASE_WORKING_RAM) :
    GBASetActiveRegion L s a = s.withCache s.memory.wram (L.SIZE_WORKING_RAM - 1) := by
  obtain ⟨⟨h1, -, -⟩, -⟩ := hL.pairs
  simp only [GBASetActiveRegion, hr, if_neg h1, if_true]

theorem GBASetActiveRegion_iwram {L : Layout} (hL : L.WellFormed) (s : State) {a : Nat}
    (hr : upperBits L a = L.BASE_WORKING_IRAM) :
    GBASetActiveRegion L s a = s.withCache s.memory.iwram (L.SIZE_WORKING_IRAM - 1) := by
  obtain ⟨⟨-, h2, h3⟩, -⟩ := hL.pairs
  simp only [GBASetActiveRegion, hr, if_neg h2, if_neg h3, if_true]

theorem GBASetActiveRegion_cart {L : Layout} (hL : L.WellFormed) (s : State) {a : Nat}
    (hr : upperBits L a ∈ L.cartBases) :
    GBASetActiveRegion L s a = s.withCache s.memory.rom (L.SIZE_CART0 - 1) := by
  obtain ⟨h1, h2, h3, -⟩ := hL.cart_ne hr
  simp only [GBASetActiveRegion, mem_cartBases_iff, if_neg h1, if_neg h2, if_neg h3, if_pos hr]

theorem upperBits_of_inSpan {L : Layout} (hA : L.Aligned) {b : Nat} (hb : b ∈ L.bases)
    {size a : Nat} (hsz : size ≤ L.OFFSET_MASK + 1) (ha : inSpan b size a) :
    upperBits L a = b := by
  obtain ⟨h1, h2⟩ := ha
  have e : a = b + (a - b) := by omega
  rw [e]
  exact upperBits_base_add hA hb (by omega)

theorem and_mask_of_inSpan {L : Layout} (hA : L.Aligned) {b : Nat} (hb : b ∈ L.bases)
    {size a : Nat} (hS : sizeOk size) (hsz : size ≤ L.OFFSET_MASK + 1) (ha : inSpan b size a) :
    a &&& (size - 1) = a - b := by
  obtain ⟨h1, h2⟩ := ha
  have e : a = b + (a - b) := by omega
  conv_lhs => rw [e]
  exact base_add_and_size hA hb hS hsz (by omega)

theorem bank_of_inSpan {L : Layout} (hL : L.WellFormed) (hA : L.Aligned) (hC : L.CartBanks)
    {c a : Nat} (hc : c = L.BASE_CART0 ∨ c = L.BASE_CART1 ∨ c = L.BASE_CART2)
    (ha : inSpan c L.SIZE_CART0 a) :
    upperBits L a ∈ L.cartBases ∧ a &&& (L.SIZE_CART0 - 1) = a - c := by
  obtain ⟨hS2, hdvd, e0, e1, e1x, e2, e2x⟩ := hC
  obtain ⟨h1, h2⟩ := ha
  have hmem : ∀ x, x ∈ L.cartBases → x ∈ L.bases := by
    intro x hx
    simp only [Layout.cartBases, Layout.bases, List.mem_cons, List.mem_singleton,
      List.not_mem_nil, or_false] at hx ⊢
    tauto
  constructor
  · by_cases hk : a - c ≤ L.OFFSET_MASK
    · have hcm : c ∈ L.cartBases := by
        simp only [Layout.cartBases, List.mem_cons, List.mem_singleton, List.not_mem_nil,
          or_false]
        tauto
      have e : a = c + (a - c) := by omega
      rw [e, upperBits_base_add hA (hmem c hcm) hk]
      exact hcm
    · have hcm : c + (L.OFFSET_MASK + 1) ∈ L.cartBases := by
        simp only [Layout.cartBases, List.mem_cons, List.mem_singleton, List.not_mem_nil,
          or_false]
        rcases hc with rfl | rfl | rfl
        · exact Or.inr (Or.inl e0.symm)
        · exact Or.inr (Or.inr (Or.inr (Or.inl e1x.symm)))
        · exact Or.inr (Or.inr (Or.inr (Or.inr (Or.inr e2x.symm))))
      have e : a = c + (L.OFFSET_MASK + 1) + (a - c - (L.OFFSET_MASK + 1)) := by omega
      rw [e, upperBits_base_add hA (hmem _ hcm) (by omega)]
      exact hcm
  · have hcd : L.SIZE_CART0 ∣ c := by
      rcases hc with rfl | rfl | rfl
      · exact hdvd
      · rw [e1]; exact Dvd.dvd.add hdvd (dvd_refl _)
      · rw [e2, e1]; exact Dvd.dvd.add (Dvd.dvd.add hdvd (dvd_refl _)) (dvd_refl _)
    have e : a = c + (a - c) := by omega
    conv_lhs => rw [e]
    rw [and_size_mask hL.2.2.2, Nat.add_mod, Nat.mod_eq_zero_of_dvd hcd, Nat.zero_add,
      Nat.mod_mod, Nat.mod_eq_of_lt (by omega)]

theorem mem_bases_named (L : Layout) :
    L.BASE_BIOS ∈ L.bases ∧ L.BASE_WORKING_RAM ∈ L.bases ∧ L.BASE_WORKING_IRAM ∈ L.bases := by
  simp [Layout.bases]

/-- C9, as the code has it: for every address in the declared span of Work RAM, of
Internal Work RAM, or of one of the three cartridge banks, and for every address that
selects one of the six cartridge aliases, `GBASetActiveRegion` caches the region's
buffer with the mask `size - 1`, and the address and-ed with that mask is the offset of
the address from the base of the span.  For every address in the declared span of the
BIOS it caches the BIOS buffer with the mask 0. -/
theorem decoder_mask (L : Layout) (hL : L.WellFormed) (hA : L.Aligned) (hC : L.CartBanks)
    (s : State) (a : Nat) :
    (inSpan L.BASE_WORKING_RAM L.SIZE_WORKING_RAM a →
      GBASetActiveRegion L s a = s.withCache s.memory.wram (L.SIZE_WORKING_RAM - 1)
        ∧ a &&& (L.SIZE_WORKING_RAM - 1) = a - L.BASE_WORKING_RAM)
    ∧ (inSpan L.BASE_WORKING_IRAM L.SIZE_WORKING_IRAM a →
      GBASetActiveRegion L s a = s.withCache s.memory.iwram (L.SIZE_WORKING_IRAM - 1)
        ∧ a &&& (L.SIZE_WORKING_IRAM - 1) = a - L.BASE_WORKING_IRAM)
    ∧ (∀ c, c = L.BASE_CART0 ∨ c = L.BASE_CART1 ∨ c = L.BASE_CART2 → inSpan c L.SIZE_CART0 a →
      GBASetActiveRegion L s a = s.withCache s.memory.rom (L.SIZE_CART0 - 1)
        ∧ a &&& (L.SIZE_CART0 - 1) = a - c)
    ∧ (upperBits L a ∈ L.cartBases →
      GBASetActiveRegion L s a = s.withCache s.memory.rom (L.SIZE_CART0 - 1))
    ∧ (inSpan L.BASE_BIOS L.SIZE_BIOS a →
      GBASetActiveRegion L s a = s.withCache s.memory.bios 0) := by
  obtain ⟨mb, mw, mi⟩ := mem_bases_named L
  have hA' := hA
  obtain ⟨-, -, -, -, fb, fw, fi⟩ := hA'
  refine ⟨fun h => ⟨?_, ?_⟩, fun h => ⟨?_, ?_⟩, fun c hc h => ⟨?_, ?_⟩, fun h => ?_, fun h => ?_⟩
  · exact GBASetActiveRegion_wram hL s (upperBits_of_inSpan hA mw fw h)
  · exact and_mask_of_inSpan hA mw hL.2.1 fw h
  · exact GBASetActiveRegion_iwram hL s (upperBits_of_inSpan hA mi fi h)
  · exact and_mask_of_inSpan hA mi hL.2.2.1 fi h
  · exact GBASetActiveRegion_cart hL s (bank_of_inSpan hL hA hC hc h).1
  · exact (bank_of_inSpan hL hA hC hc h).2
  · exact GBASetActiveRegion_cart hL s h
  · exact GBASetActiveRegion_bios L s (upperBits_of_inSpan hA mb fb h)

/-- C9, witness: the console, with one address in each span: `0x02012345` in Work RAM,
`0x03007FFF` in Internal Work RAM, `0x0B123456` in the second cartridge bank (in its
wait-state alias), and `0x00000004` in the BIOS. -/
theorem decoder_mask_witness :
    (GBASetActiveRegion gbaLayout romAttachedState 0x02012345
        = romAttachedState.withCache romAttachedState.memory.wram (0x40000 - 1)
      ∧ 0x02012345 &&& (0x40000 - 1) = 0x02012345 - 0x02000000)
    ∧ (GBASetActiveRegion gbaLayout romAttachedState 0x03007FFF
        = romAttachedState.withCache romAttachedState.memory.iwram (0x8000 - 1)
      ∧ 0x03007FFF &&& (0x8000 - 1) = 0x03007FFF - 0x03000000)
    ∧ (GBASetActiveRegion gbaLayout romAttachedState 0x0B123456
        = romAttachedState.withCache romAttachedState.memory.rom (0x2000000 - 1)
      ∧ 0x0B123456 &&& (0x2000000 - 1) = 0x0B123456 - 0x0A000000)
    ∧ GBASetActiveRegion gbaLayout romAttachedState 0x0B123456
        = romAttachedState.withCache romAttachedState.memory.rom (0x2000000 - 1)
    ∧ GBASetActiveRegion gbaLayout biosAttachedState 0x00000004
        = biosAttachedState.withCache biosAttachedState.memory.bios 0 :=
  ⟨(decoder_mask gbaLayout (by decide) (by decide) (by decide) romAttachedState
      0x02012345).1 (by decide),
    (decoder_mask gbaLayout (by decide) (by decide) (by decide) romAttachedState
      0x03007FFF).2.1 (by decide),
    (decoder_mask gbaLayout (by decide) (by decide) (by decide) romAttachedState
      0x0B123456).2.2.1 0x0A000000 (by decide) (by decide),
    (decoder_mask gbaLayout (by decide) (by decide) (by decide) romAttachedState
      0x0B123456).2.2.2.1 (by decide),
    (decoder_mask gbaLayout (by decide) (by decide) (by decide) biosAttachedState
      0x00000004).2.2.2.2 (by decide)⟩

/-- C9, counterexample: address `0x00000004` lies in the declared span of the BIOS, a
BIOS image is attached, and after `GBASetActiveRegion` the cached region is the BIOS
buffer, yet the cached mask is 0, not `SIZE_BIOS - 1 = 0x3FFF`. -/
theorem bios_mask_not_size_minus_one :
    inSpan gbaLayout.BASE_BIOS gbaLayout.SIZE_BIOS 0x00000004
    ∧ (GBASetActiveRegion gbaLayout biosAttachedState 0x00000004).memory.d.activeRegion
        = biosAttachedState.memory.bios
    ∧ biosAttachedState.memory.bios = Ptr.block 2
    ∧ (GBASetActiveRegion gbaLayout biosAttachedState 0x00000004).memory.d.activeMask = 0
    ∧ (GBASetActiveRegion gbaLayout biosAttachedState 0x00000004).memory.d.activeMask
        ≠ gbaLayout.SIZE_BIOS - 1 := by
  refine ⟨by decide, rfl, rfl, rfl, by decide⟩

/-! ## Cartridge banks -/

theorem upperBits_add_bank {L : Layout} (hA : L.Aligned) {a c n : Nat}
    (hcn : c + n ∈ L.bases) (ha : upperBits L a = c) : upperBits L (a + n) = c + n := by
  rw [upperBits_eq_div hA] at ha
  have hW : 0 < L.OFFSET_MASK + 1 := Nat.succ_pos _
  have hk : (a % 2 ^ 32) % (L.OFFSET_MASK + 1) ≤ L.OFFSET_MASK :=
    Nat.lt_succ_iff.1 (Nat.mod_lt _ hW)
  have hr : a % 2 ^ 32 = c + (a % 2 ^ 32) % (L.OFFSET_MASK + 1) := by
    have := Nat.div_add_mod' (a % 2 ^ 32) (L.OFFSET_MASK + 1)
    rw [ha] at this
    exact this.symm
  have hmod : (a + n) % 2 ^ 32 = (c + n + (a % 2 ^ 32) % (L.OFFSET_MASK + 1)) % 2 ^ 32 := by
    generalize (a % 2 ^ 32) % (L.OFFSET_MASK + 1) = k at hr
    omega
  have h1 := upperBits_eq_div hA (a + n)
  have h2 := upperBits_eq_div hA (c + n + (a % 2 ^ 32) % (L.OFFSET_MASK + 1))
  rw [h1, hmod, ← h2]
  exact upperBits_base_add hA hcn hk

theorem cart_index_eq {L : Layout} (hL : L.WellFormed) (a b : Nat)
    (hb : b = a + L.SIZE_CART0 ∨ b = a + 2 * L.SIZE_CART0) :
    b &&& (L.SIZE_CART0 - 1) = a &&& (L.SIZE_CART0 - 1) := by
  rcases hb with rfl | rfl
  · exact add_size_and_mask hL.2.2.2 a
  · rw [Nat.two_mul, ← Nat.add_assoc, add_size_and_mask hL.2.2.2, add_size_and_mask hL.2.2.2]

theorem cart_bank_alias {L : Layout} (hA : L.Aligned) (hC : L.CartBanks) {a b : Nat}
    (ha : upperBits L a = L.BASE_CART0 ∨ upperBits L a = L.BASE_CART0_EX)
    (hb : b = a + L.SIZE_CART0 ∨ b = a + 2 * L.SIZE_CART0) :
    upperBits L b ∈ L.cartBases := by
  obtain ⟨hS2, hdvd, e0, e1, e1x, e2, e2x⟩ := hC
  have mem : ∀ x, x ∈ L.cartBases → x ∈ L.bases := by
    intro x hx
    simp only [Layout.cartBases, Layout.bases, List.mem_cons, List.mem_singleton,
      List.not_mem_nil, or_false] at hx ⊢
    tauto
  have key : ∀ c n, upperBits L a = c → c + n ∈ L.cartBases →
      upperBits L (a + n) ∈ L.cartBases := by
    intro c n hc hcn
    rw [upperBits_add_bank hA (mem _ hcn) hc]
    exact hcn
  simp only [Layout.cartBases, List.mem_cons, List.mem_singleton, List.not_mem_nil,
    or_false] at key ⊢
  rcases ha with ha | ha <;> rcases hb with rfl | rfl
  · exact key _ _ ha (Or.inr (Or.inr (Or.inl e1.symm)))
  · exact key _ _ ha (Or.inr (Or.inr (Or.inr (Or.inr (Or.inl (by omega))))))
  · exact key _ _ ha (Or.inr (Or.inr (Or.inr (Or.inl (by omega)))))
  · exact key _ _ ha (Or.inr (Or.inr (Or.inr (Or.inr (Or.inr (by omega))))))

/-- C10. Cartridge aliases share one backing store: at an address that selects any of
the six aliases `GBASetActiveRegion` caches the pair (`rom`, `SIZE_CART0 - 1`); for an
address `a` that selects `BASE_CART0` or `BASE_CART0_EX`, the addresses `a + SIZE_CART0`
and `a + 2 * SIZE_CART0` select cartridge aliases too and every load returns there what
it returns at `a`; and with a ROM block attached each of these loads returns a value. -/
theorem cart_aliases_share_rom (L : Layout) (hL : L.WellFormed) (hA : L.Aligned)
    (hC : L.CartBanks) (s : State) (a : Nat) :
    (upperBits L a ∈ L.cartBases →
      GBASetActiveRegion L s a = s.withCache s.memory.rom (L.SIZE_CART0 - 1))
    ∧ (upperBits L a = L.BASE_CART0 ∨ upperBits L a = L.BASE_CART0_EX →
      ∀ b, b = a + L.SIZE_CART0 ∨ b = a + 2 * L.SIZE_CART0 →
        upperBits L b ∈ L.cartBases
        ∧ GBALoad32 L s b = GBALoad32 L s a ∧ GBALoad16 L s b = GBALoad16 L s a
        ∧ GBALoadU16 L s b = GBALoadU16 L s a ∧ GBALoad8 L s b = GBALoad8 L s a
        ∧ GBALoadU8 L s b = GBALoadU8 L s a)
    ∧ (upperBits L a ∈ L.cartBases → s.Mapped s.memory.rom L.SIZE_CART0 →
      (∃ x, GBALoad32 L s a = some x) ∧ (∃ x, GBALoad16 L s a = some x)
        ∧ (∃ x, GBALoadU16 L s a = some x) ∧ (∃ x, GBALoad8 L s a = some x)
        ∧ (∃ x, GBALoadU8 L s a = some x)) := by
  refine ⟨fun h => GBASetActiveRegion_cart hL s h, fun ha b hb => ?_,
    fun h hm => cart_loads_isSome hL s h hm⟩
  have hbc := cart_bank_alias hA hC ha hb
  have hac : upperBits L a ∈ L.cartBases := by
    simp only [Layout.cartBases, List.mem_cons, List.mem_singleton, List.not_mem_nil, or_false]
    tauto
  have hidx := cart_index_eq hL a b hb
  refine ⟨hbc, ?_, ?_, ?_, ?_, ?_⟩
  · rw [GBALoad32_cart hL s hbc, GBALoad32_cart hL s hac, hidx]
  · rw [GBALoad16_cart hL s hbc, GBALoad16_cart hL s hac, hidx]
  · rw [GBALoadU16_cart hL s hbc, GBALoadU16_cart hL s hac, hidx]
  · rw [GBALoad8_cart hL s hbc, GBALoad8_cart hL s hac, hidx]
  · rw [GBALoadU8_cart hL s hbc, GBALoadU8_cart hL s hac, hidx]

/-- C10, witness: the console with a cartridge attached, at `0x09000010` in the
wait-state alias of bank 0; the same word is read at `0x0B000010` and `0x0D000010`. -/
theorem cart_aliases_share_rom_witness :
    GBASetActiveRegion gbaLayout romAttachedState 0x09000010
      = romAttachedState.withCache romAttachedState.memory.rom (0x2000000 - 1)
    ∧ (GBALoad32 gbaLayout romAttachedState (0x09000010 + 0x2000000)
        = GBALoad32 gbaLayout romAttachedState 0x09000010
      ∧ GBALoad8 gbaLayout romAttachedState (0x09000010 + 2 * 0x2000000)
        = GBALoad8 gbaLayout romAttachedState 0x09000010)
    ∧ (∃ x, GBALoad32 gbaLayout romAttachedState 0x09000010 = some x)
    ∧ GBALoad32 gbaLayout romAttachedState 0x09000010 = some (-2038466447) :=
  have h := cart_aliases_share_rom gbaLayout (by decide) (by decide) (by decide)
    romAttachedState 0x09000010
  ⟨h.1 (by decide),
    ⟨(h.2.1 (Or.inr (by decide)) (0x09000010 + 0x2000000) (Or.inl rfl)).2.1,
      (h.2.1 (Or.inr (by decide)) (0x09000010 + 2 * 0x2000000) (Or.inr rfl)).2.2.2.2.1⟩,
    (h.2.2 (by decide) romAttachedState_mapped).1, by decide⟩

/-! ## Reading through the cache -/

theorem loadElem_withCache (s : State) (region : Ptr) (mask : Nat) (p : Ptr)
    (width idx : Nat) : (s.withCache region mask).loadElem p width idx = s.loadElem p width idx :=
  rfl

theorem cacheLoad32_withCache (s : State) (region : Ptr) (mask : Nat) (b : Nat) :
    cacheLoad32 (s.withCache region mask) b
      = (s.loadElem region 4 ((b &&& mask) >>> 2)).map (toSigned 32) := rfl

/-- C11, as the code has it: after `GBASetActiveRegion` at an address that selects Work
RAM, Internal Work RAM or one of the six cartridge aliases, the 32-bit word read
through the cache at any address with the same upper bits is the word `GBALoad32`
returns there.  After `GBASetActiveRegion` at an address that selects the BIOS, the
read through the cache is word 0 of the BIOS buffer whatever the address, while
`GBALoad32` returns 0. -/
theorem cache_read_eq_load (L : Layout) (hL : L.WellFormed) (s : State) (a b : Nat)
    (hab : upperBits L b = upperBits L a) :
    (upperBits L a = L.BASE_WORKING_RAM ∨ upperBits L a = L.BASE_WORKING_IRAM
        ∨ upperBits L a ∈ L.cartBases →
      cacheLoad32 (GBASetActiveRegion L s a) b = GBALoad32 L s b
        ∧ GBALoad32 L (GBASetActiveRegion L s a) b = GBALoad32 L s b)
    ∧ (upperBits L a = L.BASE_BIOS →
      cacheLoad32 (GBASetActiveRegion L s a) b
          = (s.loadElem s.memory.bios 4 0).map (toSigned 32)
        ∧ GBALoad32 L s b = some 0) := by
  refine ⟨fun h => ?_, fun h => ?_⟩
  · rcases h with h | h | h
    · have hb : upperBits L b = L.BASE_WORKING_RAM := hab.trans h
      rw [GBASetActiveRegion_wram hL s h, cacheLoad32_withCache, GBALoad32_wram hL s hb,
        GBALoad32_wram hL (s.withCache _ _) hb]
      exact ⟨rfl, rfl⟩
    · have hb : upperBits L b = L.BASE_WORKING_IRAM := hab.trans h
      rw [GBASetActiveRegion_iwram hL s h, cacheLoad32_withCache, GBALoad32_iwram hL s hb,
        GBALoad32_iwram hL (s.withCache _ _) hb]
      exact ⟨rfl, rfl⟩
    · have hb : upperBits L b ∈ L.cartBases := hab ▸ h
      rw [GBASetActiveRegion_cart hL s h, cacheLoad32_withCache, GBALoad32_cart hL s hb,
        GBALoad32_cart hL (s.withCache _ _) hb]
      exact ⟨rfl, rfl⟩
  · have hb : upperBits L b = L.BASE_BIOS := hab.trans h
    rw [GBASetActiveRegion_bios L s h, cacheLoad32_withCache]
    exact ⟨by simp, GBALoad32_zero L s (Or.inl hb)⟩

/-- C11, witness: the console with a cartridge attached, selector at `0x08000000` and
read at `0x08FFFFFC`; and with a BIOS image attached, selector at 0 and read at
`0x00000100`. -/
theorem cache_read_eq_load_witness :
    (cacheLoad32 (GBASetActiveRegion gbaLayout romAttachedState 0x08000000) 0x08FFFFFC
        = GBALoad32 gbaLayout romAttachedState 0x08FFFFFC
      ∧ GBALoad32 gbaLayout (GBASetActiveRegion gbaLayout romAttachedState 0x08000000) 0x08FFFFFC
        = GBALoad32 gbaLayout romAttachedState 0x08FFFFFC)
    ∧ (cacheLoad32 (GBASetActiveRegion gbaLayout biosAttachedState 0) 0x00000100
        = (biosAttachedState.loadElem biosAttachedState.memory.bios 4 0).map (toSigned 32)
      ∧ GBALoad32 gbaLayout biosAttachedState 0x00000100 = some 0) :=
  ⟨(cache_read_eq_load gbaLayout (by decide) romAttachedState 0x08000000 0x08FFFFFC
      (by decide)).1 (Or.inr (Or.inr (by decide))),
    (cache_read_eq_load gbaLayout (by decide) biosAttachedState 0 0x00000100
      (by decide)).2 (by decide)⟩

/-- C11, counterexample: with a BIOS image of `0xFF` bytes attached,
`GBASetActiveRegion` at address 0 yields a non-null `activeRegion`, and at address 0
itself the word read through the cache is `-1` while `GBALoad32` returns 0. -/
theorem bios_cache_read_ne_load :
    (GBASetActiveRegion gbaLayout biosAttachedState 0).memory.d.activeRegion ≠ Ptr.null
    ∧ upperBits gbaLayout 0 = gbaLayout.BASE_BIOS
    ∧ cacheLoad32 (GBASetActiveRegion gbaLayout biosAttachedState 0) 0 = some (-1)
    ∧ GBALoad32 gbaLayout (GBASetActiveRegion gbaLayout biosAttachedState 0) 0 = some 0
    ∧ cacheLoad32 (GBASetActiveRegion gbaLayout biosAttachedState 0) 0
        ≠ GBALoad32 gbaLayout (GBASetActiveRegion gbaLayout biosAttachedState 0) 0 := by
  decide

/-! ## Stores to regions without a backing store -/

theorem Layout.WellFormed.discarded_ne {L : Layout} (hL : L.WellFormed) {r : Nat}
    (h : r = L.BASE_BIOS ∨ r = L.BASE_PALETTE_RAM ∨ r = L.BASE_VRAM ∨ r = L.BASE_OAM
      ∨ r = L.BASE_CART_SRAM ∨ r ∉ L.bases) :
    r ≠ L.BASE_WORKING_RAM ∧ r ≠ L.BASE_WORKING_IRAM ∧ r ≠ L.BASE_IO := by
  have hn := hL.1
  simp only [Layout.bases, List.nodup_cons, List.mem_cons, List.mem_singleton, not_or,
    List.not_mem_nil, not_false_eq_true, List.nodup_nil, and_true] at hn
  simp only [Layout.bases, List.mem_cons, List.mem_singleton, List.not_mem_nil, or_false,
    not_or] at h
  rcases h with rfl | rfl | rfl | rfl | rfl | h
  · refine ⟨?_, ?_, ?_⟩ <;> exact fun e => by simp [e] at hn
  · refine ⟨?_, ?_, ?_⟩ <;> exact fun e => by simp [e] at hn
  · refine ⟨?_, ?_, ?_⟩ <;> exact fun e => by simp [e] at hn
  · refine ⟨?_, ?_, ?_⟩ <;> exact fun e => by simp [e] at hn
  · refine ⟨?_, ?_, ?_⟩ <;> exact fun e => by simp [e] at hn
  · exact ⟨h.2.1, h.2.2.1, h.2.2.2.1⟩

/-- C12. Stores to unbacked regions are discarded: at every address whose upper bits
are the BIOS, Palette RAM, Video RAM, Object Attributes or Cartridge Static RAM base,
or no named base at all, each of the three stores returns the state it was given: no
buffer, no field of the bus and no trace of collaborator calls changes. -/
theorem unbacked_stores_discarded (L : Layout) (hL : L.WellFormed) (s : State) (a : Nat)
    (v : Int)
    (ha : upperBits L a = L.BASE_BIOS ∨ upperBits L a = L.BASE_PALETTE_RAM
      ∨ upperBits L a = L.BASE_VRAM ∨ upperBits L a = L.BASE_OAM
      ∨ upperBits L a = L.BASE_CART_SRAM ∨ upperBits L a ∉ L.bases) :
    GBAStore32 L s a v = some s ∧ GBAStore16 L s a v = some s ∧ GBAStore8 L s a v = some s := by
  obtain ⟨h1, h2, h3⟩ := hL.discarded_ne ha
  exact ⟨GBAStore32_other L s v h1 h2, GBAStore16_other L s v h1 h2 h3,
    GBAStore8_other L s v h1 h2⟩

/-- C12, witness: on the console with a BIOS image attached, stores of `-1` at the BIOS
address `0x00000000`, at the Palette RAM address `0x05000002` and at the unclaimed
address `0x01000000`. -/
theorem unbacked_stores_discarded_witness :
    (GBAStore32 gbaLayout biosAttachedState 0x00000000 (-1) = some biosAttachedState
      ∧ GBAStore16 gbaLayout biosAttachedState 0x00000000 (-1) = some biosAttachedState
      ∧ GBAStore8 gbaLayout biosAttachedState 0x00000000 (-1) = some biosAttachedState)
    ∧ (GBAStore32 gbaLayout biosAttachedState 0x05000002 (-1) = some biosAttachedState
      ∧ GBAStore16 gbaLayout biosAttachedState 0x05000002 (-1) = some biosAttachedState
      ∧ GBAStore8 gbaLayout biosAttachedState 0x05000002 (-1) = some biosAttachedState)
    ∧ (GBAStore32 gbaLayout biosAttachedState 0x01000000 (-1) = some biosAttachedState
      ∧ GBAStore16 gbaLayout biosAttachedState 0x01000000 (-1) = some biosAttachedState
      ∧ GBAStore8 gbaLayout biosAttachedState 0x01000000 (-1) = some biosAttachedState) :=
  ⟨unbacked_stores_discarded gbaLayout (by decide) biosAttachedState 0x00000000 (-1)
      (Or.inl (by decide)),
    unbacked_stores_discarded gbaLayout (by decide) biosAttachedState 0x05000002 (-1)
      (Or.inr (Or.inl (by decide))),
    unbacked_stores_discarded gbaLayout (by decide) biosAttachedState 0x01000000 (-1)
      (Or.inr (Or.inr (Or.inr (Or.inr (Or.inr (by decide))))))⟩

/-! ## Low address bits -/

theorem sizeOk_pow_le {n : Nat} (h : sizeOk n) : ∃ k, 2 ≤ k ∧ k ≤ 32 ∧ n = 2 ^ k := by
  obtain ⟨h4, hd⟩ := h
  obtain ⟨k, hk, rfl⟩ := (Nat.dvd_prime_pow Nat.prime_two).1 hd
  refine ⟨k, ?_, hk, rfl⟩
  by_contra hk2
  have hk1 : k = 0 ∨ k = 1 := by omega
  rcases hk1 with rfl | rfl <;> simp at h4

theorem clearLow_and_high (a n m : Nat) (hnm : n ≤ m) (hm : m ≤ 32) :
    clearLow n a &&& (0xFFFFFFFF ^^^ (2 ^ m - 1)) = a &&& (0xFFFFFFFF ^^^ (2 ^ m - 1)) := by
  have e : (0xFFFFFFFF : Nat) = 2 ^ 32 - 1 := by norm_num
  unfold clearLow
  rw [e]
  apply Nat.eq_of_testBit_eq
  intro i
  simp only [Nat.testBit_and, Nat.testBit_xor, Nat.testBit_two_pow_sub_one]
  by_cases h1 : i < n
  · have h2 : i < m := by omega
    have h3 : i < 32 := by omega
    simp [h1, h2, h3]
  · by_cases h3 : i < 32 <;> simp [h1, h3]
    intro _
    omega

theorem clearLow_index (a n k : Nat) (hk : k ≤ 32) :
    (clearLow n a &&& (2 ^ k - 1)) >>> n = (a &&& (2 ^ k - 1)) >>> n := by
  have e : (0xFFFFFFFF : Nat) = 2 ^ 32 - 1 := by norm_num
  unfold clearLow
  rw [e]
  apply Nat.eq_of_testBit_eq
  intro j
  simp only [Nat.testBit_shiftRight, Nat.testBit_and, Nat.testBit_xor,
    Nat.testBit_two_pow_sub_one]
  have h1 : ¬ n + j < n := by omega
  by_cases h2 : n + j < k
  · have h3 : n + j < 32 := by omega
    simp [h1, h2, h3]
  · simp [h2]

theorem upperBits_clearLow {L : Layout} (hA : L.Aligned) (n a : Nat) (hn : n ≤ 2) :
    upperBits L (clearLow n a) = upperBits L a := by
  obtain ⟨m, hm32, hm⟩ := hA.window
  have h4 : 4 ≤ L.OFFSET_MASK + 1 := le_trans hA.2.2.1.1 hA.2.2.2.1
  have hm2 : 2 ≤ m := by
    by_contra hlt
    have hm1 : m = 0 ∨ m = 1 := by omega
    rcases hm1 with rfl | rfl <;> omega
  have e : L.OFFSET_MASK = 2 ^ m - 1 := by omega
  unfold upperBits
  rw [e]
  exact clearLow_and_high a n m (by omega) hm32

theorem size_index_clearLow {S : Nat} (hS : sizeOk S) (n a : Nat) :
    (clearLow n a &&& (S - 1)) >>> n = (a &&& (S - 1)) >>> n := by
  obtain ⟨k, -, hk, rfl⟩ := sizeOk_pow_le hS
  exact clearLow_index a n k hk

/-- C13. No alignment requirement: at an address in Work RAM, Internal Work RAM or a
cartridge alias, a 32-bit load returns what it returns at the address with its low two
bits cleared, the 16-bit loads what they return at the address with its low bit
cleared, and the 32-bit and 16-bit stores produce the same result as at the cleared
address.  The element read or written is element `(a & (size - 1)) >> log2(width)` of
the region's buffer viewed at that width. -/
theorem low_bits_ignored (L : Layout) (hL : L.WellFormed) (hA : L.Aligned) (s : State)
    (a : Nat)
    (ha : upperBits L a = L.BASE_WORKING_RAM ∨ upperBits L a = L.BASE_WORKING_IRAM
      ∨ upperBits L a ∈ L.cartBases) :
    (GBALoad32 L s (clearLow 2 a) = GBALoad32 L s a
      ∧ GBALoad16 L s (clearLow 1 a) = GBALoad16 L s a
      ∧ GBALoadU16 L s (clearLow 1 a) = GBALoadU16 L s a
      ∧ ∀ v, GBAStore32 L s (clearLow 2 a) v = GBAStore32 L s a v
          ∧ GBAStore16 L s (clearLow 1 a) v = GBAStore16 L s a v)
    ∧ ∃ p S,
        ((upperBits L a = L.BASE_WORKING_RAM ∧ p = s.memory.wram ∧ S = L.SIZE_WORKING_RAM)
          ∨ (upperBits L a = L.BASE_WORKING_IRAM ∧ p = s.memory.iwram
            ∧ S = L.SIZE_WORKING_IRAM)
          ∨ (upperBits L a ∈ L.cartBases ∧ p = s.memory.rom ∧ S = L.SIZE_CART0))
        ∧ GBALoad32 L s a = (s.loadElem p 4 ((a &&& (S - 1)) >>> 2)).map (toSigned 32)
        ∧ GBALoad16 L s a = (s.loadElem p 2 ((a &&& (S - 1)) >>> 1)).map (toSigned 16)
        ∧ GBALoadU16 L s a = s.loadElem p 2 ((a &&& (S - 1)) >>> 1)
        ∧ (upperBits L a ∉ L.cartBases → ∀ v,
            GBAStore32 L s a v = s.storeElem p 4 ((a &&& (S - 1)) >>> 2) (toUnsigned 32 v)
            ∧ GBAStore16 L s a v
              = s.storeElem p 2 ((a &&& (S - 1)) >>> 1) (toUnsigned 16 v)) := by
  have u2 := upperBits_clearLow hA 2 a (by omega)
  have u1 := upperBits_clearLow hA 1 a (by omega)
  rcases ha with h | h | h
  · have i2 := size_index_clearLow hL.2.1 2 a
    have i1 := size_index_clearLow hL.2.1 1 a
    refine ⟨⟨?_, ?_, ?_, fun v => ⟨?_, ?_⟩⟩, s.memory.wram, L.SIZE_WORKING_RAM,
      Or.inl ⟨h, rfl, rfl⟩, GBALoad32_wram hL s h, GBALoad16_wram hL s h,
      GBALoadU16_wram hL s h, fun _ v => ⟨GBAStore32_wram L s v h, GBAStore16_wram L s v h⟩⟩
    · rw [GBALoad32_wram hL s (u2.trans h), GBALoad32_wram hL s h, i2]
    · rw [GBALoad16_wram hL s (u1.trans h), GBALoad16_wram hL s h, i1]
    · rw [GBALoadU16_wram hL s (u1.trans h), GBALoadU16_wram hL s h, i1]
    · rw [GBAStore32_wram L s v (u2.trans h), GBAStore32_wram L s v h, i2]
    · rw [GBAStore16_wram L s v (u1.trans h), GBAStore16_wram L s v h, i1]
  · have i2 := size_index_clearLow hL.2.2.1 2 a
    have i1 := size_index_clearLow hL.2.2.1 1 a
    refine ⟨⟨?_, ?_, ?_, fun v => ⟨?_, ?_⟩⟩, s.memory.iwram, L.SIZE_WORKING_IRAM,
      Or.inr (Or.inl ⟨h, rfl, rfl⟩), GBALoad32_iwram hL s h, GBALoad16_iwram hL s h,
      GBALoadU16_iwram hL s h,
      fun _ v => ⟨GBAStore32_iwram hL s v h, GBAStore16_iwram hL s v h⟩⟩
    · rw [GBALoad32_iwram hL s (u2.trans h), GBALoad32_iwram hL s h, i2]
    · rw [GBALoad16_iwram hL s (u1.trans h), GBALoad16_iwram hL s h, i1]
    · rw [GBALoadU16_iwram hL s (u1.trans h), GBALoadU16_iwram hL s h, i1]
    · rw [GBAStore32_iwram hL s v (u2.trans h), GBAStore32_iwram hL s v h, i2]
    · rw [GBAStore16_iwram hL s v (u1.trans h), GBAStore16_iwram hL s v h, i1]
  · have i2 := size_index_clearLow hL.2.2.2 2 a
    have i1 := size_index_clearLow hL.2.2.2 1 a
    have h2 : upperBits L (clearLow 2 a) ∈ L.cartBases := u2 ▸ h
    have h1 : upperBits L (clearLow 1 a) ∈ L.cartBases := u1 ▸ h
    obtain ⟨-, n1, n2, n3, -⟩ := hL.cart_ne h
    refine ⟨⟨?_, ?_, ?_, fun v => ⟨?_, ?_⟩⟩, s.memory.rom, L.SIZE_CART0,
      Or.inr (Or.inr ⟨h, rfl, rfl⟩), GBALoad32_cart hL s h, GBALoad16_cart hL s h,
      GBALoadU16_cart hL s h, fun hn => absurd h hn⟩
    · rw [GBALoad32_cart hL s h2, GBALoad32_cart hL s h, i2]
    · rw [GBALoad16_cart hL s h1, GBALoad16_cart hL s h, i1]
    · rw [GBALoadU16_cart hL s h1, GBALoadU16_cart hL s h, i1]
    · rw [GBAStore32_other L s v (u2 ▸ n1) (u2 ▸ n2), GBAStore32_other L s v n1 n2]
    · rw [GBAStore16_other L s v (u1 ▸ n1) (u1 ▸ n2) (u1 ▸ n3),
        GBAStore16_other L s v n1 n2 n3]

/-- C13, witness: the console, at the odd Work RAM address `0x02000123`, whose cleared
forms are `0x02000120` and `0x02000122`. -/
theorem low_bits_ignored_witness :
    clearLow 2 0x02000123 = 0x02000120 ∧ clearLow 1 0x02000123 = 0x02000122
    ∧ GBALoad32 gbaLayout bootState (clearLow 2 0x02000123)
        = GBALoad32 gbaLayout bootState 0x02000123
    ∧ GBALoad16 gbaLayout bootState (clearLow 1 0x02000123)
        = GBALoad16 gbaLayout bootState 0x02000123
    ∧ GBALoadU16 gbaLayout bootState (clearLow 1 0x02000123)
        = GBALoadU16 gbaLayout bootState 0x02000123
    ∧ GBAStore32 gbaLayout bootState (clearLow 2 0x02000123) 0x12345678
        = GBAStore32 gbaLayout bootState 0x02000123 0x12345678
    ∧ GBAStore16 gbaLayout bootState (clearLow 1 0x02000123) 0x1234
        = GBAStore16 gbaLayout bootState 0x02000123 0x1234 :=
  have h := (low_bits_ignored gbaLayout (by decide) (by decide) bootState 0x02000123
    (Or.inl (by decide))).1
  ⟨by decide, by decide, h.1, h.2.1, h.2.2.1, (h.2.2.2 0x12345678).1, (h.2.2.2 0x1234).2⟩

/-! ## Signed and unsigned loads -/

theorem Buffer.readLE_lt (n : Nat) : ∀ (b : Buffer) (off u : Nat),
    b.readLE off n = some u → u < 256 ^ n := by
  induction n with
  | zero => intro b off u h; simp [Buffer.readLE] at h; omega
  | succ n ih =>
    intro b off u h
    simp only [Buffer.readLE, Buffer.byte?] at h
    split at h
    · rename_i lo hi hlo hhi
      have h1 := ih b (off + 1) hi hhi
      have h2 : lo < 256 := by
        split at hlo
        · simp only [Option.some.injEq] at hlo
          rw [← hlo]
          exact (b.data off).isLt
        · exact absurd hlo (by simp)
      simp only [Option.some.injEq] at h
      rw [pow_succ']
      omega
    · exact absurd h (by simp)

theorem State.loadElem_lt (s : State) (p : Ptr) (width idx u : Nat)
    (h : s.loadElem p width idx = some u) : u < 256 ^ width := by
  unfold State.loadElem at h
  split at h
  · exact Buffer.readLE_lt width _ _ u h
  · exact absurd h (by simp)

theorem toUnsigned_toSigned_16 (u : Nat) (h : u < 256 ^ 2) :
    toUnsigned 16 (toSigned 16 u) = u := by
  unfold toSigned toUnsigned
  norm_num at h ⊢
  split <;> omega

theorem toUnsigned_toSigned_8 (u : Nat) (h : u < 256 ^ 1) :
    toUnsigned 8 (toSigned 8 u) = u := by
  unfold toSigned toUnsigned
  norm_num at h ⊢
  split <;> omega

theorem State.loadElem_unsigned_signed_16 (s : State) (p : Ptr) (idx : Nat) :
    ((s.loadElem p 2 idx).map (toSigned 16)).map (toUnsigned 16) = s.loadElem p 2 idx := by
  cases h : s.loadElem p 2 idx with
  | none => rfl
  | some u =>
    simp only [Option.map_some', Option.some.injEq]
    exact toUnsigned_toSigned_16 u (State.loadElem_lt s p 2 idx u h)

theorem State.loadElem_unsigned_signed_8 (s : State) (p : Ptr) (idx : Nat) :
    ((s.loadElem p 1 idx).map (toSigned 8)).map (toUnsigned 8) = s.loadElem p 1 idx := by
  cases h : s.loadElem p 1 idx with
  | none => rfl
  | some u =>
    simp only [Option.map_some', Option.some.injEq]
    exact toUnsigned_toSigned_8 u (State.loadElem_lt s p 1 idx u h)

theorem toUnsigned_zero (bits : Nat) : toUnsigned bits 0 = 0 := by
  simp [toUnsigned]

theorem toSigned_zero_16 : toSigned 16 0 = 0 := by decide

theorem toSigned_zero_8 : toSigned 8 0 = 0 := by decide

theorem signed_unsigned_pair (L : Layout) (s : State) (a : Nat) :
    GBALoadU16 L s a = (GBALoad16 L s a).map (toUnsigned 16)
    ∧ GBALoad16 L s a = (GBALoadU16 L s a).map (toSigned 16)
    ∧ GBALoadU8 L s a = (GBALoad8 L s a).map (toUnsigned 8)
    ∧ GBALoad8 L s a = (GBALoadU8 L s a).map (toSigned 8) := by
  refine ⟨?_, ?_, ?_, ?_⟩
  · simp only [GBALoadU16, GBALoad16, apply_ite (Option.map (toUnsigned 16)),
      Option.map_some', toUnsigned_zero, State.loadElem_unsigned_signed_16]
  · simp only [GBALoadU16, GBALoad16, apply_ite (Option.map (toSigned 16)),
      Option.map_some', toSigned_zero_16]
  · simp only [GBALoadU8, GBALoad8, apply_ite (Option.map (toUnsigned 8)),
      Option.map_some', toUnsigned_zero, State.loadElem_unsigned_signed_8]
  · simp only [GBALoadU8, GBALoad8, apply_ite (Option.map (toSigned 8)),
      Option.map_some', toSigned_zero_8]

theorem toUnsigned_cast (bits : Nat) (x : Int) : ((toUnsigned bits x : Nat) : Int) = x % 2 ^ bits := by
  unfold toUnsigned
  exact Int.toNat_of_nonneg (Int.emod_nonneg _ (by positivity))

/-- C14. Signed and unsigned loads read the same bits: in every state and at every
address, `GBALoadU16` returns the result of `GBALoad16` reinterpreted as an unsigned
16-bit number and `GBALoad16` the result of `GBALoadU16` reinterpreted as a signed one,
and likewise `GBALoadU8` and `GBALoad8` at 8 bits; where one has no result the other
has none, and where they return `u` and `x`, `u` is `x` modulo `2 ^ 16` (modulo `2 ^ 8`
at 8 bits). -/
theorem signed_unsigned_same_bits (L : Layout) (s : State) (a : Nat) :
    GBALoadU16 L s a = (GBALoad16 L s a).map (toUnsigned 16)
    ∧ GBALoad16 L s a = (GBALoadU16 L s a).map (toSigned 16)
    ∧ GBALoadU8 L s a = (GBALoad8 L s a).map (toUnsigned 8)
    ∧ GBALoad8 L s a = (GBALoadU8 L s a).map (toSigned 8)
    ∧ (∀ (x : Int) (u : Nat), GBALoad16 L s a = some x → GBALoadU16 L s a = some u →
        (u : Int) = x % 2 ^ 16)
    ∧ (∀ (x : Int) (u : Nat), GBALoad8 L s a = some x → GBALoadU8 L s a = some u →
        (u : Int) = x % 2 ^ 8) := by
  obtain ⟨h1, h2, h3, h4⟩ := signed_unsigned_pair L s a
  refine ⟨h1, h2, h3, h4, fun x u hx hu => ?_, fun x u hx hu => ?_⟩
  · rw [h1, hx, Option.map_some', Option.some.injEq] at hu
    rw [← hu]
    exact toUnsigned_cast 16 x
  · rw [h3, hx, Option.map_some', Option.some.injEq] at hu
    rw [← hu]
    exact toUnsigned_cast 8 x

/-- C14, witness: the console with a cartridge attached, at `0x08000012`, where the
halfword is `0x867F`: the signed load returns `-31105` and the unsigned one `34431`;
the byte at `0x08000013` is `0x86`, read as `-122` and as `134`. -/
theorem signed_unsigned_same_bits_witness :
    GBALoad16 gbaLayout romAttachedState 0x08000012 = some (-31105)
    ∧ GBALoadU16 gbaLayout romAttachedState 0x08000012 = some 34431
    ∧ ((34431 : Nat) : Int) = (-31105) % 2 ^ 16
    ∧ GBALoad8 gbaLayout romAttachedState 0x08000013 = some (-122)
    ∧ GBALoadU8 gbaLayout romAttachedState 0x08000013 = some 134
    ∧ ((134 : Nat) : Int) = (-122) % 2 ^ 8 :=
  ⟨by decide, by decide,
    (signed_unsigned_same_bits gbaLayout romAttachedState 0x08000012).2.2.2.2.1 (-31105) 34431
      (by decide) (by decide),
    by decide, by decide,
    (signed_unsigned_same_bits gbaLayout romAttachedState 0x08000013).2.2.2.2.2 (-122) 134
      (by decide) (by decide)⟩

/-! ## The selector on the whole address space -/

theorem GBASetActiveRegion_other (L : Layout) (s : State) {a : Nat}
    (h0 : upperBits L a ≠ L.BASE_BIOS) (h1 : upperBits L a ≠ L.BASE_WORKING_RAM)
    (h2 : upperBits L a ≠ L.BASE_WORKING_IRAM) (h3 : upperBits L a ∉ L.cartBases) :
    GBASetActiveRegion L s a = s.withCache Ptr.null 0 := by
  simp only [GBASetActiveRegion, mem_cartBases_iff, if_neg h0, if_neg h1, if_neg h2, if_neg h3]

theorem GBASetActiveRegion_eq_withCache (L : Layout) (s : State) (a : Nat) :
    ∃ region mask, GBASetActiveRegion L s a = s.withCache region mask := by
  unfold GBASetActiveRegion
  simp only []
  split_ifs
  · exact ⟨_, _, rfl⟩
  · exact ⟨_, _, rfl⟩
  · exact ⟨_, _, rfl⟩
  · exact ⟨_, _, rfl⟩
  · exact ⟨_, _, rfl⟩

/-- C15. The selector is total and maps unrecognized addresses to "unmapped": at an
address whose upper bits are not the BIOS, Work RAM or Internal Work RAM base nor one
of the six cartridge alias bases, `GBASetActiveRegion` sets `activeRegion` to null and
`activeMask` to 0; and at every address it returns the state with only the two cache
fields assigned: the four buffer pointers, `io`, the owning context, host memory and
the record of `munmap` calls are as before. -/
theorem selector_total (L : Layout) (s : State) (a : Nat) :
    (upperBits L a ≠ L.BASE_BIOS ∧ upperBits L a ≠ L.BASE_WORKING_RAM
        ∧ upperBits L a ≠ L.BASE_WORKING_IRAM ∧ upperBits L a ∉ L.cartBases →
      (GBASetActiveRegion L s a).memory.d.activeRegion = Ptr.null
        ∧ (GBASetActiveRegion L s a).memory.d.activeMask = 0)
    ∧ (∃ region mask, GBASetActiveRegion L s a = s.withCache region mask)
    ∧ (GBASetActiveRegion L s a).memory.wram = s.memory.wram
    ∧ (GBASetActiveRegion L s a).memory.iwram = s.memory.iwram
    ∧ (GBASetActiveRegion L s a).memory.rom = s.memory.rom
    ∧ (GBASetActiveRegion L s a).memory.bios = s.memory.bios
    ∧ (GBASetActiveRegion L s a).memory.io = s.memory.io
    ∧ (GBASetActiveRegion L s a).memory.p = s.memory.p
    ∧ (GBASetActiveRegion L s a).heap = s.heap
    ∧ (GBASetActiveRegion L s a).munmaps = s.munmaps := by
  obtain ⟨region, mask, h⟩ := GBASetActiveRegion_eq_withCache L s a
  refine ⟨fun hn => ?_, ⟨region, mask, h⟩, ?_⟩
  · rw [GBASetActiveRegion_other L s hn.1 hn.2.1 hn.2.2.1 hn.2.2.2]
    exact ⟨rfl, rfl⟩
  · rw [h]
    exact ⟨rfl, rfl, rfl, rfl, rfl, rfl, rfl, rfl⟩

/-- C15, witness: on the console with a cartridge attached, the unclaimed addresses
`0x01000000` and `0xFFFFFFFF`, and the I/O address `0x04000000`, which the selector
does not name either. -/
theorem selector_total_witness :
    ((GBASetActiveRegion gbaLayout romAttachedState 0x01000000).memory.d.activeRegion = Ptr.null
      ∧ (GBASetActiveRegion gbaLayout romAttachedState 0x01000000).memory.d.activeMask = 0)
    ∧ ((GBASetActiveRegion gbaLayout romAttachedState 0xFFFFFFFF).memory.d.activeRegion = Ptr.null
      ∧ (GBASetActiveRegion gbaLayout romAttachedState 0xFFFFFFFF).memory.d.activeMask = 0)
    ∧ ((GBASetActiveRegion gbaLayout romAttachedState 0x04000000).memory.d.activeRegion = Ptr.null
      ∧ (GBASetActiveRegion gbaLayout romAttachedState 0x04000000).memory.d.activeMask = 0) :=
  ⟨(selector_total gbaLayout romAttachedState 0x01000000).1 (by decide),
    (selector_total gbaLayout romAttachedState 0xFFFFFFFF).1 (by decide),
    (selector_total gbaLayout romAttachedState 0x04000000).1 (by decide)⟩

/-! ## The state after a successful initialisation -/

theorem Buffer.zero_readLE (n : Nat) : ∀ (size off : Nat),
    off + n ≤ size → (Buffer.zero size).readLE off n = some 0 := by
  induction n with
  | zero => intro size off _; rfl
  | succ n ih =>
    intro size off h
    have hlt : off < size := by omega
    have h0 : (Buffer.zero size).byte? off = some 0 := by
      simp [Buffer.byte?, Buffer.zero, hlt]
    simp only [Buffer.readLE, h0, ih size (off + 1) (by omega)]

theorem State.loadElem_zero (s : State) (p : Ptr) (width idx size : Nat)
    (hp : s.heap.deref p = some (Buffer.zero size)) (hb : width * idx + width ≤ size) :
    s.loadElem p width idx = some 0 := by
  simp only [State.loadElem, hp]
  exact Buffer.zero_readLE width size (width * idx) hb

theorem toSigned_zero_32 : toSigned 32 0 = 0 := by decide

theorem zero_ram_loads {L : Layout} (hL : L.WellFormed) (s : State)
    (hw : s.heap.deref s.memory.wram = some (Buffer.zero L.SIZE_WORKING_RAM))
    (hi : s.heap.deref s.memory.iwram = some (Buffer.zero L.SIZE_WORKING_IRAM))
    (a : Nat) (ha : upperBits L a ∉ L.cartBases) :
    GBALoad32 L s a = some 0 ∧ GBALoad16 L s a = some 0 ∧ GBALoadU16 L s a = some 0
      ∧ GBALoad8 L s a = some 0 ∧ GBALoadU8 L s a = some 0 := by
  by_cases h1 : upperBits L a = L.BASE_WORKING_RAM
  · have hS := hL.2.1
    rw [GBALoad32_wram hL s h1, GBALoad16_wram hL s h1, GBALoadU16_wram hL s h1,
      GBALoad8_wram hL s h1, GBALoadU8_wram hL s h1,
      State.loadElem_zero s _ 4 _ _ hw (word_index_bound hS a),
      State.loadElem_zero s _ 2 _ _ hw (half_index_bound hS a),
      State.loadElem_zero s _ 1 _ _ hw (byte_index_bound hS a)]
    exact ⟨rfl, rfl, rfl, rfl, rfl⟩
  · by_cases h2 : upperBits L a = L.BASE_WORKING_IRAM
    · have hS := hL.2.2.1
      rw [GBALoad32_iwram hL s h2, GBALoad16_iwram hL s h2, GBALoadU16_iwram hL s h2,
        GBALoad8_iwram hL s h2, GBALoadU8_iwram hL s h2,
        State.loadElem_zero s _ 4 _ _ hi (word_index_bound hS a),
        State.loadElem_zero s _ 2 _ _ hi (half_index_bound hS a),
        State.loadElem_zero s _ 1 _ _ hi (byte_index_bound hS a)]
      exact ⟨rfl, rfl, rfl, rfl, rfl⟩
    · have h : upperBits L a = L.BASE_BIOS ∨ (upperBits L a ≠ L.BASE_WORKING_RAM
          ∧ upperBits L a ≠ L.BASE_WORKING_IRAM ∧ upperBits L a ∉ L.cartBases) :=
        Or.inr ⟨h1, h2, ha⟩
      exact ⟨GBALoad32_zero L s h, GBALoad16_zero L s h, GBALoadU16_zero L s h,
        GBALoad8_zero L s h, GBALoadU8_zero L s h⟩

theorem GBAMemoryInit_mapped_wram (L : Layout) (s : State) (idw idi : Nat) (hne : idw ≠ idi) :
    (GBAMemoryInit L s (MmapResult.mapped idw) (MmapResult.mapped idi)).heap.deref
        (GBAMemoryInit L s (MmapResult.mapped idw) (MmapResult.mapped idi)).memory.wram
      = some (Buffer.zero L.SIZE_WORKING_RAM) := by
  simp [GBAMemoryInit, mmapAnon, Heap.deref, Function.update, hne]

theorem GBAMemoryInit_mapped_iwram (L : Layout) (s : State) (idw idi : Nat) :
    (GBAMemoryInit L s (MmapResult.mapped idw) (MmapResult.mapped idi)).heap.deref
        (GBAMemoryInit L s (MmapResult.mapped idw) (MmapResult.mapped idi)).memory.iwram
      = some (Buffer.zero L.SIZE_WORKING_IRAM) := by
  simp [GBAMemoryInit, mmapAnon, Heap.deref, Function.update]

/-- C16. The state after a successful `GBAMemoryInit`, both mappings succeeding with
zero-filled blocks at distinct places: `bios` and `rom` are null, every entry of `io`
is 0, `activeRegion` is null and `activeMask` is 0, the owning context (its error
status included) is untouched, nothing has been unmapped, Work RAM and Internal Work
RAM are present, and every load at every width returns 0 at every address that does not
select a cartridge alias, that is in Work RAM, Internal Work RAM, BIOS, I/O, Palette
RAM, Video RAM, Object Attributes, Cartridge Static RAM and in every unrecognized
range. -/
theorem init_state (L : Layout) (hL : L.WellFormed) (s : State) (idw idi : Nat)
    (hne : idw ≠ idi) :
    (GBAMemoryInit L s (MmapResult.mapped idw) (MmapResult.mapped idi)).memory.bios = Ptr.null
    ∧ (GBAMemoryInit L s (MmapResult.mapped idw) (MmapResult.mapped idi)).memory.rom = Ptr.null
    ∧ (∀ x ∈ (GBAMemoryInit L s (MmapResult.mapped idw) (MmapResult.mapped idi)).memory.io,
        x = 0)
    ∧ (GBAMemoryInit L s (MmapResult.mapped idw) (MmapResult.mapped idi)).memory.io.length
        = s.memory.io.length
    ∧ (GBAMemoryInit L s (MmapResult.mapped idw) (MmapResult.mapped idi)).memory.d.activeRegion
        = Ptr.null
    ∧ (GBAMemoryInit L s (MmapResult.mapped idw) (MmapResult.mapped idi)).memory.d.activeMask
        = 0
    ∧ (GBAMemoryInit L s (MmapResult.mapped idw) (MmapResult.mapped idi)).memory.p = s.memory.p
    ∧ (GBAMemoryInit L s (MmapResult.mapped idw) (MmapResult.mapped idi)).munmaps = s.munmaps
    ∧ (GBAMemoryInit L s (MmapResult.mapped idw) (MmapResult.mapped idi)).RamPresent L
    ∧ ∀ a, upperBits L a ∉ L.cartBases →
        GBALoad32 L (GBAMemoryInit L s (MmapResult.mapped idw) (MmapResult.mapped idi)) a
          = some 0
        ∧ GBALoad16 L (GBAMemoryInit L s (MmapResult.mapped idw) (MmapResult.mapped idi)) a
          = some 0
        ∧ GBALoadU16 L (GBAMemoryInit L s (MmapResult.mapped idw) (MmapResult.mapped idi)) a
          = some 0
        ∧ GBALoad8 L (GBAMemoryInit L s (MmapResult.mapped idw) (MmapResult.mapped idi)) a
          = some 0
        ∧ GBALoadU8 L (GBAMemoryInit L s (MmapResult.mapped idw) (MmapResult.mapped idi)) a
          = some 0 := by
  have hw := GBAMemoryInit_mapped_wram L s idw idi hne
  have hi := GBAMemoryInit_mapped_iwram L s idw idi
  refine ⟨rfl, rfl, ?_, ?_, rfl, rfl, rfl, rfl, ⟨⟨_, hw, le_refl _⟩, ⟨_, hi, le_refl _⟩⟩,
    fun a ha => zero_ram_loads hL _ hw hi a ha⟩
  · intro x hx
    have hio : (GBAMemoryInit L s (MmapResult.mapped idw) (MmapResult.mapped idi)).memory.io
        = s.memory.io.map (fun _ => 0) := rfl
    rw [hio, List.mem_map] at hx
    obtain ⟨_, _, rfl⟩ := hx
    rfl
  · have hio : (GBAMemoryInit L s (MmapResult.mapped idw) (MmapResult.mapped idi)).memory.io
        = s.memory.io.map (fun _ => 0) := rfl
    rw [hio, List.length_map]

/-- C16, witness: the console initialised from a blank record, with the two mappings
at blocks 0 and 1; the I/O address `0x04000130` and the last Work RAM address
`0x0203FFFF` read as 0. -/
theorem init_state_witness :
    bootState.memory.bios = Ptr.null ∧ bootState.memory.rom = Ptr.null
    ∧ (∀ x ∈ bootState.memory.io, x = 0)
    ∧ bootState.memory.d.activeRegion = Ptr.null ∧ bootState.memory.d.activeMask = 0
    ∧ bootState.memory.p = blankState.memory.p
    ∧ (GBALoad32 gbaLayout bootState 0x04000130 = some 0
      ∧ GBALoad16 gbaLayout bootState 0x04000130 = some 0
      ∧ GBALoadU16 gbaLayout bootState 0x04000130 = some 0
      ∧ GBALoad8 gbaLayout bootState 0x04000130 = some 0
      ∧ GBALoadU8 gbaLayout bootState 0x04000130 = some 0)
    ∧ (GBALoad32 gbaLayout bootState 0x0203FFFF = some 0
      ∧ GBALoad16 gbaLayout bootState 0x0203FFFF = some 0
      ∧ GBALoadU16 gbaLayout bootState 0x0203FFFF = some 0
      ∧ GBALoad8 gbaLayout bootState 0x0203FFFF = some 0
      ∧ GBALoadU8 gbaLayout bootState 0x0203FFFF = some 0) :=
  have h := init_state gbaLayout (by decide) blankState 0 1 (by decide)
  ⟨h.1, h.2.1, h.2.2.1, h.2.2.2.2.1, h.2.2.2.2.2.1, h.2.2.2.2.2.2.1,
    h.2.2.2.2.2.2.2.2.2 0x04000130 (by decide), h.2.2.2.2.2.2.2.2.2 0x0203FFFF (by decide)⟩

/-! ## What a store leaves alone -/

theorem State.storeElem_frame (s : State) (p : Ptr) (width idx u size : Nat)
    (hm : s.Mapped p size) (hb : width * idx + width ≤ size) :
    ∃ s', s.storeElem p width idx u = some s' ∧ s'.memory = s.memory
      ∧ s'.munmaps = s.munmaps
      ∧ (∀ q, q ≠ p → s'.heap.deref q = s.heap.deref q)
      ∧ ∃ b b', s.heap.deref p = some b ∧ s'.heap.deref p = some b' ∧ b'.size = b.size
        ∧ ∀ j, j < width * idx ∨ width * idx + width ≤ j → b'.data j = b.data j := by
  obtain ⟨b, hd, hsz⟩ := hm
  cases p with
  | null => simp [Heap.deref] at hd
  | mapFailed => simp [Heap.deref] at hd
  | block id =>
    simp only [Heap.deref] at hd
    obtain ⟨b', hw⟩ := Buffer.writeLE_isSome width b (width * idx) u (by omega)
    refine ⟨{ s with heap := Function.update s.heap id (some b') }, ?_, rfl, rfl, ?_,
      b, b', hd, ?_, Buffer.writeLE_size width b b' _ u hw,
      fun j hj => Buffer.writeLE_data_frame width b b' _ u j hw hj⟩
    · simp only [State.storeElem, hd, hw]
    · intro q hq
      cases q with
      | null => rfl
      | mapFailed => rfl
      | block id' =>
        have hne : id' ≠ id := fun e => hq (by rw [e])
        simp only [Heap.deref, Function.update_noteq hne]
    · simp only [Heap.deref, Function.update_same]

theorem State.loadElem_of_deref_eq (s s' : State) (q : Ptr)
    (h : s'.heap.deref q = s.heap.deref q) (w i : Nat) :
    s'.loadElem q w i = s.loadElem q w i := by
  simp only [State.loadElem, h]

theorem State.loadElem_of_frame (s s' : State) (p : Ptr) (width idx : Nat)
    (hf : ∃ b b', s.heap.deref p = some b ∧ s'.heap.deref p = some b' ∧ b'.size = b.size
      ∧ ∀ j, j < width * idx ∨ width * idx + width ≤ j → b'.data j = b.data j)
    (w i : Nat) (hd : elemDisjoint width idx w i) :
    s'.loadElem p w i = s.loadElem p w i := by
  obtain ⟨b, b', h1, h2, hsz, hdata⟩ := hf
  simp only [State.loadElem, h1, h2]
  refine Buffer.readLE_congr w b b' (w * i) hsz (fun j hj1 hj2 => hdata j ?_)
  rcases hd with hd | hd
  · left; omega
  · right; omega

theorem storeFrame_wram {L : Layout} (hL : L.WellFormed) (s s' : State) (hsep : s.Separate)
    (width idx : Nat) (hmem : s'.memory = s.memory) (hmun : s'.munmaps = s.munmaps)
    (hother : ∀ q, q ≠ s.memory.wram → s'.heap.deref q = s.heap.deref q)
    (hblock : ∃ b b', s.heap.deref s.memory.wram = some b
      ∧ s'.heap.deref s.memory.wram = some b' ∧ b'.size = b.size
      ∧ ∀ j, j < width * idx ∨ width * idx + width ≤ j → b'.data j = b.data j) :
    StoreFrame L s s' L.BASE_WORKING_RAM L.SIZE_WORKING_RAM s.memory.wram width idx := by
  have hiw := State.loadElem_of_deref_eq s s' s.memory.iwram (hother _ hsep.1.symm)
  have hrom := State.loadElem_of_deref_eq s s' s.memory.rom (hother _ hsep.2.1)
  refine ⟨hmem, hmun, hother, hblock, fun b hb => ?_, fun b hb => ⟨fun hd => ?_, fun hd => ?_,
    fun hd => ?_⟩⟩
  · refine ⟨?_, ?_, ?_, ?_, ?_⟩
    · simp only [GBALoad32, hmem, if_neg hb, hiw, hrom]
    · simp only [GBALoad16, hmem, if_neg hb, hiw, hrom]
    · simp only [GBALoadU16, hmem, if_neg hb, hiw, hrom]
    · simp only [GBALoad8, hmem, if_neg hb, hiw, hrom]
    · simp only [GBALoadU8, hmem, if_neg hb, hiw, hrom]
  · rw [GBALoad32_wram hL s' hb, GBALoad32_wram hL s hb, hmem,
      State.loadElem_of_frame s s' _ width idx hblock 4 _ hd]
  · rw [GBALoad16_wram hL s' hb, GBALoad16_wram hL s hb, GBALoadU16_wram hL s' hb,
      GBALoadU16_wram hL s hb, hmem, State.loadElem_of_frame s s' _ width idx hblock 2 _ hd]
    exact ⟨rfl, rfl⟩
  · rw [GBALoad8_wram hL s' hb, GBALoad8_wram hL s hb, GBALoadU8_wram hL s' hb,
      GBALoadU8_wram hL s hb, hmem, State.loadElem_of_frame s s' _ width idx hblock 1 _ hd]
    exact ⟨rfl, rfl⟩

theorem storeFrame_iwram {L : Layout} (hL : L.WellFormed) (s s' : State) (hsep : s.Separate)
    (width idx : Nat) (hmem : s'.memory = s.memory) (hmun : s'.munmaps = s.munmaps)
    (hother : ∀ q, q ≠ s.memory.iwram → s'.heap.deref q = s.heap.deref q)
    (hblock : ∃ b b', s.heap.deref s.memory.iwram = some b
      ∧ s'.heap.deref s.memory.iwram = some b' ∧ b'.size = b.size
      ∧ ∀ j, j < width * idx ∨ width * idx + width ≤ j → b'.data j = b.data j) :
    StoreFrame L s s' L.BASE_WORKING_IRAM L.SIZE_WORKING_IRAM s.memory.iwram width idx := by
  have hw := State.loadElem_of_deref_eq s s' s.memory.wram (hother _ hsep.1)
  have hrom := State.loadElem_of_deref_eq s s' s.memory.rom (hother _ hsep.2.2.1)
  refine ⟨hmem, hmun, hother, hblock, fun b hb => ?_, fun b hb => ⟨fun hd => ?_, fun hd => ?_,
    fun hd => ?_⟩⟩
  · refine ⟨?_, ?_, ?_, ?_, ?_⟩
    · simp only [GBALoad32, hmem, if_neg hb, hw, hrom]
    · simp only [GBALoad16, hmem, if_neg hb, hw, hrom]
    · simp only [GBALoadU16, hmem, if_neg hb, hw, hrom]
    · simp only [GBALoad8, hmem, if_neg hb, hw, hrom]
    · simp only [GBALoadU8, hmem, if_neg hb, hw, hrom]
  · rw [GBALoad32_iwram hL s' hb, GBALoad32_iwram hL s hb, hmem,
      State.loadElem_of_frame s s' _ width idx hblock 4 _ hd]
  · rw [GBALoad16_iwram hL s' hb, GBALoad16_iwram hL s hb, GBALoadU16_iwram hL s' hb,
      GBALoadU16_iwram hL s hb, hmem, State.loadElem_of_frame s s' _ width idx hblock 2 _ hd]
    exact ⟨rfl, rfl⟩
  · rw [GBALoad8_iwram hL s' hb, GBALoad8_iwram hL s hb, GBALoadU8_iwram hL s' hb,
      GBALoadU8_iwram hL s hb, hmem, State.loadElem_of_frame s s' _ width idx hblock 1 _ hd]
    exact ⟨rfl, rfl⟩

theorem romAttachedState_ramPresent : romAttachedState.RamPresent gbaLayout :=
  ⟨⟨Buffer.zero 0x40000, rfl, by decide⟩, ⟨Buffer.zero 0x8000, rfl, by decide⟩⟩

theorem romAttachedState_separate : romAttachedState.Separate :=
  ⟨by decide, by decide, by decide, by decide, by decide⟩

theorem State.MappedExactly.mapped {s : State} {p : Ptr} {size : Nat}
    (h : s.MappedExactly p size) : s.Mapped p size := by
  obtain ⟨b, hb, hsz⟩ := h
  exact ⟨b, hb, by omega⟩

theorem index_lt_of_sizeOk {S : Nat} (hS : sizeOk S) (a : Nat) :
    (a &&& (S - 1)) >>> 2 < S / 4 ∧ (a &&& (S - 1)) >>> 1 < S / 2 ∧ a &&& (S - 1) < S / 1 := by
  have h4 := word_index_bound hS a
  have h2 := half_index_bound hS a
  have h1 := byte_index_bound hS a
  obtain ⟨m, hm⟩ := sizeOk_four_dvd hS
  refine ⟨?_, ?_, ?_⟩ <;> omega

theorem Buffer.readLE_some_bound (n : Nat) : ∀ (b : Buffer) (off u : Nat),
    b.readLE off (n + 1) = some u → off + (n + 1) ≤ b.size := by
  induction n with
  | zero =>
    intro b off u h
    simp only [Buffer.readLE, Buffer.byte?] at h
    by_cases hlt : off < b.size
    · omega
    · simp [hlt] at h
  | succ n ih =>
    intro b off u h
    rw [Buffer.readLE] at h
    split at h
    · rename_i lo hi hlo hhi
      have := ih b (off + 1) hi hhi
      omega
    · exact absurd h (by simp)

theorem State.loadElem_some_bound (s : State) (p : Ptr) (n idx u : Nat) (b : Buffer)
    (hp : s.heap.deref p = some b) (h : s.loadElem p (n + 1) idx = some u) :
    (n + 1) * idx + (n + 1) ≤ b.size := by
  simp only [State.loadElem, hp] at h
  exact Buffer.readLE_some_bound n b _ u h

theorem ram_access_isSome {L : Layout} (hL : L.WellFormed) (s : State)
    (hs : s.RamPresent L) {a : Nat}
    (ha : upperBits L a = L.BASE_WORKING_RAM ∨ upperBits L a = L.BASE_WORKING_IRAM) (v : Int) :
    ((∃ x, GBALoad32 L s a = some x) ∧ (∃ x, GBALoad16 L s a = some x)
      ∧ (∃ x, GBALoadU16 L s a = some x) ∧ (∃ x, GBALoad8 L s a = some x)
      ∧ (∃ x, GBALoadU8 L s a = some x))
    ∧ (∃ s', GBAStore32 L s a v = some s') ∧ (∃ s', GBAStore16 L s a v = some s')
    ∧ (∃ s', GBAStore8 L s a v = some s') := by
  rcases ha with ha | ha
  · have hS := hL.2.1
    obtain ⟨u4, h4⟩ := State.loadElem_isSome s _ 4 _ _ hs.1 (word_index_bound hS a)
    obtain ⟨u2, h2⟩ := State.loadElem_isSome s _ 2 _ _ hs.1 (half_index_bound hS a)
    obtain ⟨u1, h1⟩ := State.loadElem_isSome s _ 1 _ _ hs.1 (byte_index_bound hS a)
    obtain ⟨s4, e4, -⟩ := State.storeElem_frame s _ 4 _ (toUnsigned 32 v) _ hs.1
      (word_index_bound hS a)
    obtain ⟨s2, e2, -⟩ := State.storeElem_frame s _ 2 _ (toUnsigned 16 v) _ hs.1
      (half_index_bound hS a)
    obtain ⟨s1, e1, -⟩ := State.storeElem_frame s _ 1 _ (toUnsigned 8 v) _ hs.1
      (byte_index_bound hS a)
    rw [GBALoad32_wram hL s ha, GBALoad16_wram hL s ha, GBALoadU16_wram hL s ha,
      GBALoad8_wram hL s ha, GBALoadU8_wram hL s ha, GBAStore32_wram L s v ha,
      GBAStore16_wram L s v ha, GBAStore8_wram L s v ha, h4, h2, h1, e4, e2, e1]
    simp only [Option.map_some', Option.some.injEq, exists_eq', and_self]
  · have hS := hL.2.2.1
    obtain ⟨u4, h4⟩ := State.loadElem_isSome s _ 4 _ _ hs.2 (word_index_bound hS a)
    obtain ⟨u2, h2⟩ := State.loadElem_isSome s _ 2 _ _ hs.2 (half_index_bound hS a)
    obtain ⟨u1, h1⟩ := State.loadElem_isSome s _ 1 _ _ hs.2 (byte_index_bound hS a)
    obtain ⟨s4, e4, -⟩ := State.storeElem_frame s _ 4 _ (toUnsigned 32 v) _ hs.2
      (word_index_bound hS a)
    obtain ⟨s2, e2, -⟩ := State.storeElem_frame s _ 2 _ (toUnsigned 16 v) _ hs.2
      (half_index_bound hS a)
    obtain ⟨s1, e1, -⟩ := State.storeElem_frame s _ 1 _ (toUnsigned 8 v) _ hs.2
      (byte_index_bound hS a)
    rw [GBALoad32_iwram hL s ha, GBALoad16_iwram hL s ha, GBALoadU16_iwram hL s ha,
      GBALoad8_iwram hL s ha, GBALoadU8_iwram hL s ha, GBAStore32_iwram hL s v ha,
      GBAStore16_iwram hL s v ha, GBAStore8_iwram hL s v ha, h4, h2, h1, e4, e2, e1]
    simp only [Option.map_some', Option.some.injEq, exists_eq', and_self]

theorem last_cart_address {L : Layout} (hL : L.WellFormed) (hA : L.Aligned)
    (hC : L.CartBanks) :
    upperBits L (L.BASE_CART0 + (L.SIZE_CART0 - 1)) ∈ L.cartBases
      ∧ (L.BASE_CART0 + (L.SIZE_CART0 - 1)) &&& (L.SIZE_CART0 - 1) = L.SIZE_CART0 - 1 := by
  have h4 : 4 ≤ L.SIZE_CART0 := hL.2.2.2.1
  have hspan : inSpan L.BASE_CART0 L.SIZE_CART0 (L.BASE_CART0 + (L.SIZE_CART0 - 1)) :=
    ⟨by omega, by omega⟩
  obtain ⟨h1, h2⟩ := bank_of_inSpan hL hA hC (Or.inl rfl) hspan
  exact ⟨h1, by rw [h2]; omega⟩

theorem cart_last_element_bound {L : Layout} (hL : L.WellFormed) (s : State) (b : Buffer)
    (hrom : s.heap.deref s.memory.rom = some b) :
    ((∃ u, s.loadElem s.memory.rom 4 ((L.SIZE_CART0 - 1) >>> 2) = some u) →
      L.SIZE_CART0 ≤ b.size)
    ∧ ((∃ u, s.loadElem s.memory.rom 2 ((L.SIZE_CART0 - 1) >>> 1) = some u) →
      L.SIZE_CART0 ≤ b.size)
    ∧ ((∃ u, s.loadElem s.memory.rom 1 (L.SIZE_CART0 - 1) = some u) →
      L.SIZE_CART0 ≤ b.size) := by
  obtain ⟨m, hm⟩ := sizeOk_four_dvd hL.2.2.2
  have h4 : 4 ≤ L.SIZE_CART0 := hL.2.2.2.1
  have e2 : (2 : Nat) ^ 2 = 4 := by norm_num
  have e1 : (2 : Nat) ^ 1 = 2 := by norm_num
  refine ⟨fun ⟨u, hu⟩ => ?_, fun ⟨u, hu⟩ => ?_, fun ⟨u, hu⟩ => ?_⟩
  · have := State.loadElem_some_bound s _ 3 _ u b hrom hu
    rw [Nat.shiftRight_eq_div_pow, e2] at this
    omega
  · have := State.loadElem_some_bound s _ 1 _ u b hrom hu
    rw [Nat.shiftRight_eq_div_pow, e1] at this
    omega
  · have := State.loadElem_some_bound s _ 0 _ u b hrom hu
    omega

theorem Option.map_eq_some_exists {α β : Type} (f : α → β) (o : Option α) :
    (∃ x, o.map f = some x) → ∃ u, o = some u := by
  cases o with
  | none => intro ⟨x, hx⟩; exact absurd hx (by simp)
  | some u => intro _; exact ⟨u, rfl⟩

/-- C18. Indexing stays in bounds: for each of the sizes `SIZE_WORKING_RAM`,
`SIZE_WORKING_IRAM` and `SIZE_CART0` the element index computed from any address is
strictly below `size / width` at each width; so when the Work RAM and Internal Work RAM
blocks hold exactly their declared sizes, every load and every store at every width and
at every address that selects one of the two regions has a result, the out-of-bounds
case never arising; and with a ROM block attached, each of the five loads has a result
at every address that selects a cartridge alias exactly when the block holds at least
`SIZE_CART0` bytes. -/
theorem indexing_in_bounds (L : Layout) (hL : L.WellFormed) (hA : L.Aligned)
    (hC : L.CartBanks) (s : State) :
    (∀ S, S = L.SIZE_WORKING_RAM ∨ S = L.SIZE_WORKING_IRAM ∨ S = L.SIZE_CART0 → ∀ a,
      (a &&& (S - 1)) >>> 2 < S / 4 ∧ (a &&& (S - 1)) >>> 1 < S / 2
        ∧ a &&& (S - 1) < S / 1)
    ∧ (s.MappedExactly s.memory.wram L.SIZE_WORKING_RAM →
      s.MappedExactly s.memory.iwram L.SIZE_WORKING_IRAM →
      ∀ a v, upperBits L a = L.BASE_WORKING_RAM ∨ upperBits L a = L.BASE_WORKING_IRAM →
        ((∃ x, GBALoad32 L s a = some x) ∧ (∃ x, GBALoad16 L s a = some x)
          ∧ (∃ x, GBALoadU16 L s a = some x) ∧ (∃ x, GBALoad8 L s a = some x)
          ∧ (∃ x, GBALoadU8 L s a = some x))
        ∧ (∃ s', GBAStore32 L s a v = some s') ∧ (∃ s', GBAStore16 L s a v = some s')
        ∧ (∃ s', GBAStore8 L s a v = some s'))
    ∧ (∀ b, s.heap.deref s.memory.rom = some b →
      ((∀ a, upperBits L a ∈ L.cartBases → ∃ x, GBALoad32 L s a = some x)
        ↔ L.SIZE_CART0 ≤ b.size)
      ∧ ((∀ a, upperBits L a ∈ L.cartBases → ∃ x, GBALoad16 L s a = some x)
        ↔ L.SIZE_CART0 ≤ b.size)
      ∧ ((∀ a, upperBits L a ∈ L.cartBases → ∃ x, GBALoadU16 L s a = some x)
        ↔ L.SIZE_CART0 ≤ b.size)
      ∧ ((∀ a, upperBits L a ∈ L.cartBases → ∃ x, GBALoad8 L s a = some x)
        ↔ L.SIZE_CART0 ≤ b.size)
      ∧ ((∀ a, upperBits L a ∈ L.cartBases → ∃ x, GBALoadU8 L s a = some x)
        ↔ L.SIZE_CART0 ≤ b.size)) := by
  refine ⟨fun S hS a => ?_, fun hw hi a v ha => ram_access_isSome hL s ⟨hw.mapped, hi.mapped⟩ ha v,
    fun b hrom => ?_⟩
  · rcases hS with rfl | rfl | rfl
    · exact index_lt_of_sizeOk hL.2.1 a
    · exact index_lt_of_sizeOk hL.2.2.1 a
    · exact index_lt_of_sizeOk hL.2.2.2 a
  · obtain ⟨hlast, hidx⟩ := last_cart_address hL hA hC
    obtain ⟨b4, b2, b1⟩ := cart_last_element_bound hL s b hrom
    have back : L.SIZE_CART0 ≤ b.size → ∀ a, upperBits L a ∈ L.cartBases →
        (∃ x, GBALoad32 L s a = some x) ∧ (∃ x, GBALoad16 L s a = some x)
          ∧ (∃ x, GBALoadU16 L s a = some x) ∧ (∃ x, GBALoad8 L s a = some x)
          ∧ (∃ x, GBALoadU8 L s a = some x) :=
      fun hsz a ha => cart_loads_isSome hL s ha ⟨b, hrom, hsz⟩
    refine ⟨⟨fun h => ?_, fun hsz a ha => (back hsz a ha).1⟩,
      ⟨fun h => ?_, fun hsz a ha => (back hsz a ha).2.1⟩,
      ⟨fun h => ?_, fun hsz a ha => (back hsz a ha).2.2.1⟩,
      ⟨fun h => ?_, fun hsz a ha => (back hsz a ha).2.2.2.1⟩,
      ⟨fun h => ?_, fun hsz a ha => (back hsz a ha).2.2.2.2⟩⟩
    · have hx := h _ hlast
      rw [GBALoad32_cart hL s hlast, hidx] at hx
      exact b4 (Option.map_eq_some_exists _ _ hx)
    · have hx := h _ hlast
      rw [GBALoad16_cart hL s hlast, hidx] at hx
      exact b2 (Option.map_eq_some_exists _ _ hx)
    · have hx := h _ hlast
      rw [GBALoadU16_cart hL s hlast, hidx] at hx
      exact b2 hx
    · have hx := h _ hlast
      rw [GBALoad8_cart hL s hlast, hidx] at hx
      exact b1 (Option.map_eq_some_exists _ _ hx)
    · have hx := h _ hlast
      rw [GBALoadU8_cart hL s hlast, hidx] at hx
      exact b1 hx

/-- C18, witness: the console with a full-size cartridge attached: the indices computed
from address `0xFFFFFFFF` are below `size / width`, every access at the last Work RAM
address `0x0203FFFF` has a result, and every cartridge load has one; with a cartridge
image of `0x100` bytes some cartridge load has none. -/
theorem indexing_in_bounds_witness :
    ((0xFFFFFFFF &&& (0x40000 - 1)) >>> 2 < 0x40000 / 4
      ∧ (0xFFFFFFFF &&& (0x40000 - 1)) >>> 1 < 0x40000 / 2
      ∧ 0xFFFFFFFF &&& (0x40000 - 1) < 0x40000 / 1)
    ∧ (((∃ x, GBALoad32 gbaLayout romAttachedState 0x0203FFFF = some x)
        ∧ (∃ x, GBALoad16 gbaLayout romAttachedState 0x0203FFFF = some x)
        ∧ (∃ x, GBALoadU16 gbaLayout romAttachedState 0x0203FFFF = some x)
        ∧ (∃ x, GBALoad8 gbaLayout romAttachedState 0x0203FFFF = some x)
        ∧ (∃ x, GBALoadU8 gbaLayout romAttachedState 0x0203FFFF = some x))
      ∧ (∃ s', GBAStore32 gbaLayout romAttachedState 0x0203FFFF (-1) = some s')
      ∧ (∃ s', GBAStore16 gbaLayout romAttachedState 0x0203FFFF (-1) = some s')
      ∧ (∃ s', GBAStore8 gbaLayout romAttachedState 0x0203FFFF (-1) = some s'))
    ∧ (∀ a, upperBits gbaLayout a ∈ gbaLayout.cartBases →
        ∃ x, GBALoad32 gbaLayout romAttachedState a = some x)
    ∧ ¬ (∀ a, upperBits gbaLayout a ∈ gbaLayout.cartBases →
        ∃ x, GBALoad8 gbaLayout shortRomState a = some x) :=
  have h := indexing_in_bounds gbaLayout (by decide) (by decide) (by decide) romAttachedState
  have h' := indexing_in_bounds gbaLayout (by decide) (by decide) (by decide) shortRomState
  ⟨h.1 0x40000 (Or.inl rfl) 0xFFFFFFFF,
    h.2.1 ⟨Buffer.zero 0x40000, rfl, rfl⟩ ⟨Buffer.zero 0x8000, rfl, rfl⟩ 0x0203FFFF (-1)
      (Or.inl (by decide)),
    (h.2.2 ⟨0x2000000, fun i => Fin.ofNat (7 * i + 1)⟩ rfl).1.2 (by decide),
    fun hall => absurd ((h'.2.2 ⟨0x100, fun i => Fin.ofNat (7 * i + 1)⟩ rfl).2.2.2.1.1 hall)
      (by decide)⟩

end Mgba
